import Mathlib

/-!
# suds: DNS answers for nodes and services read from a key-value store

A shallow embedding of `main.go`.  The handler `ServeDNS` and the functions it
calls (`GetNode`, `GetService`, `ServicesA`, `ServicesSRV`, `NodesA`,
`IsKeyNotFound`, `NameError`) are translated function by function.

Conventions of the embedding.

* A Go string is a Lean `String`; the `strings` helpers used by the program
  (`HasSuffix`, `TrimSuffix`, `Split`) are defined on its character list.
* The collaborators that are not part of `main.go` are parameters: the etcd
  client (`Server.etcd`), and `json.Unmarshal` and `filepath.Join`
  (the fields of `Lib`).
* A Go function returning `(*T, error)` returns a four-way `Ret`: a pointer,
  the pair `(nil, nil)`, an error, or a run-time panic (a nil pointer that is
  dereferenced, an index out of range).
* Every call of `etcd.Get` is recorded: each function returns, next to its
  result, the list of the fetches it performed, in order.
-/

namespace Suds

/-! ## Strings -/

/-- Go `strings.HasSuffix`. -/
def HasSuffix (s suffix : String) : Bool :=
  suffix.data.isSuffixOf s.data

/-- Go `strings.TrimSuffix`: `s` without the trailing `suffix`, or `s` itself
when `s` does not end with `suffix`. -/
def TrimSuffix (s suffix : String) : String :=
  if HasSuffix s suffix then
    String.mk (s.data.take (s.data.length - suffix.data.length))
  else s

/-- The segments of a character list between the occurrences of `sep`; there
is always at least one segment. -/
def splitChars (sep : Char) : List Char → List (List Char)
  | [] => [[]]
  | c :: cs =>
    if c = sep then [] :: splitChars sep cs
    else
      match splitChars sep cs with
      | [] => [[c]]
      | w :: ws => (c :: w) :: ws

/-- Go `strings.Split` for a separator of one character (the program only
splits on `"."`). -/
def Split (s : String) (sep : Char) : List String :=
  (splitChars sep s.data).map String.mk

/-! ## Errors -/

/-- A Go `error` value, by dynamic type: an `*etcd.EtcdError` with its
`ErrorCode`, an error of `encoding/json`, or any other error. -/
inductive GoError where
  | etcd (ErrorCode : Nat) (Message : String)
  | json (msg : String)
  | other (msg : String)
  deriving DecidableEq, Repr

deriving instance DecidableEq for Except

/-- The constant `etcdErr.EcodeKeyNotFound`. -/
def EcodeKeyNotFound : Nat := 100

/-- The function `IsKeyNotFound` of `main.go`. -/
def IsKeyNotFound (err : GoError) : Bool :=
  match err with
  | .etcd code _ => code == EcodeKeyNotFound
  | _ => false

/-! ## Stored records and the store -/

/-- A `net.IP`: a byte slice.  A nil `net.IP` is `none` where one is held. -/
abbrev IP := List Nat

/-- The struct `Record`. -/
structure Record where
  Priority : Nat
  Weight : Nat
  Port : Nat
  Target : String
  deriving DecidableEq, Repr

/-- The struct `Node`; `IP = none` is the nil slice. -/
structure Node where
  IP : Option IP
  deriving DecidableEq, Repr

/-- A child of an etcd directory: the fields `Key` and `Value` the program
reads. -/
structure EtcdNode where
  Key : String
  Value : String
  deriving DecidableEq, Repr

/-- The `resp.Node` of a successful `etcd.Get`: its `Value` and its child
`Nodes`. -/
structure Response where
  Value : String
  Nodes : List EtcdNode
  deriving DecidableEq, Repr

/-- The etcd client: `Get key sort recursive`. -/
structure EtcdClient where
  Get : String → Bool → Bool → Except GoError Response

/-- The library functions the program calls: `json.Unmarshal` into a `Node`
and into a `Record` (an error is the message of a json error), and
`filepath.Join`. -/
structure Lib where
  UnmarshalNode : String → Except String Node
  UnmarshalRecord : String → Except String Record
  Join : List String → String

/-- The struct `Server`; its field `prefix` is written `prefix_` here. -/
structure Server where
  etcd : EtcdClient
  domain : String
  prefix_ : String
  ttl : Nat

/-- One call of `etcd.Get`, with its three arguments. -/
structure Fetch where
  key : String
  sort : Bool
  recursive : Bool
  deriving DecidableEq, Repr

/-! ## DNS messages -/

/-- The constant `dns.TypeA`. -/
def TypeA : Nat := 1
/-- The constant `dns.TypeSRV`. -/
def TypeSRV : Nat := 33
/-- The constant `dns.RcodeSuccess`. -/
def RcodeSuccess : Nat := 0
/-- The constant `dns.RcodeServerFailure`. -/
def RcodeServerFailure : Nat := 2
/-- The constant `dns.RcodeNameError`. -/
def RcodeNameError : Nat := 3

/-- The struct `dns.Question`. -/
structure Question where
  Name : String
  Qtype : Nat
  Qclass : Nat
  deriving DecidableEq, Repr

/-- The struct `dns.RR_Header`. -/
structure RR_Header where
  Name : String
  Rrtype : Nat
  Class : Nat
  Ttl : Nat
  deriving DecidableEq, Repr

/-- The resource records the program builds: `dns.A` and `dns.SRV`. -/
inductive RR where
  | A (Hdr : RR_Header) (A : Option IP)
  | SRV (Hdr : RR_Header) (Priority Weight Port : Nat) (Target : String)
  deriving DecidableEq, Repr

/-- The fields of `dns.Msg` the program reads or writes. -/
structure Msg where
  Id : Nat
  Response : Bool
  Rcode : Nat
  Question : List Question
  Answer : List RR
  Extra : List RR
  deriving DecidableEq, Repr

/-- The method `(*dns.Msg).SetReply` on a fresh message: the reply header of
`request`, the first question echoed, no records. -/
def SetReply (request : Msg) : Msg :=
  { Id := request.Id, Response := true, Rcode := RcodeSuccess,
    Question := request.Question.take 1, Answer := [], Extra := [] }

/-- The method `(*dns.Msg).SetRcode` on a fresh message. -/
def SetRcode (request : Msg) (rcode : Nat) : Msg :=
  { SetReply request with Rcode := rcode }

/-- The message written by `NameError(w, req)`. -/
def NameError (req : Msg) : Msg :=
  SetRcode req RcodeNameError

/-- The message written by `dns.HandleFailed(w, r)`. -/
def HandleFailed (r : Msg) : Msg :=
  SetRcode r RcodeServerFailure

/-! ## Results -/

/-- The result of a Go function returning `(*T, error)`. -/
inductive Ret (α : Type) where
  /-- A non-nil pointer and a nil error. -/
  | ptr (a : α)
  /-- The pair `(nil, nil)`. -/
  | nil
  /-- A nil pointer and a non-nil error. -/
  | err (e : GoError)
  /-- A run-time panic: the function does not return. -/
  | panic
  deriving DecidableEq, Repr

/-- What `ServeDNS` did with the response writer: it wrote one message, or it
panicked before writing. -/
inductive Outcome where
  | wrote (m : Msg)
  | panic
  deriving DecidableEq, Repr

/-! ## The store accessors -/

/-- The key `GetNode` fetches for `name`. -/
def nodeKey (L : Lib) (s : Server) (name : String) : String :=
  L.Join ["/", s.prefix_, "nodes", TrimSuffix name ".nodes."]

/-- The key `GetService` fetches for `name`. -/
def serviceKey (L : Lib) (s : Server) (name : String) : String :=
  L.Join ["/", s.prefix_, "services", TrimSuffix name ".services."]

/-- The method `GetNode`. -/
def GetNode (L : Lib) (s : Server) (name : String) : Ret Node × List Fetch :=
  let key := nodeKey L s name
  let fetched : List Fetch := [⟨key, false, false⟩]
  match s.etcd.Get key false false with
  | .error err => (.err err, fetched)
  | .ok resp =>
    match L.UnmarshalNode resp.Value with
    | .error err => (.err (.json err), fetched)
    | .ok node =>
      match node.IP with
      | none => (.nil, fetched)
      | some _ => (.ptr node, fetched)

/-- The loop of `GetService` over `resp.Node.Nodes`, appending to `records`. -/
def GetService.loop (L : Lib) : List EtcdNode → List Record → List Record
  | [], records => records
  | n :: rest, records =>
    match L.UnmarshalRecord n.Value with
    | .error _ => GetService.loop L rest records
    | .ok record =>
      if record.Target = "" then GetService.loop L rest records
      else GetService.loop L rest (records ++ [record])

/-- The method `GetService`; a Go slice result is never a nil pointer, so the
result is an error or a list. -/
def GetService (L : Lib) (s : Server) (name : String) :
    Except GoError (List Record) × List Fetch :=
  let key := serviceKey L s name
  let fetched : List Fetch := [⟨key, false, true⟩]
  match s.etcd.Get key false true with
  | .error err => (.error err, fetched)
  | .ok resp => (.ok (GetService.loop L resp.Nodes []), fetched)

/-! ## The answer assemblers -/

/-- The loop of `ServicesA` over `records`: the message so far and the fetches
so far; `none` is a panic (`node.IP` on a nil `node`). -/
def ServicesA.loop (L : Lib) (s : Server) (header : RR_Header) :
    List Record → Msg → List Fetch → Option Msg × List Fetch
  | [], m, fetched => (some m, fetched)
  | record :: rest, m, fetched =>
    if !HasSuffix record.Target ".nodes." then
      ServicesA.loop L s header rest m fetched
    else
      match GetNode L s record.Target with
      | (.err _, f) => ServicesA.loop L s header rest m (fetched ++ f)
      | (.panic, f) => (none, fetched ++ f)
      | (.nil, f) => (none, fetched ++ f)
      | (.ptr node, f) =>
        ServicesA.loop L s header rest
          { m with Answer := m.Answer ++ [RR.A header node.IP] } (fetched ++ f)

/-- The method `ServicesA`. -/
def ServicesA (L : Lib) (s : Server) (r : Msg) (name : String) :
    Ret Msg × List Fetch :=
  match GetService L s name with
  | (.error err, f) => (.err err, f)
  | (.ok records, f) =>
    if records.length = 0 then (.nil, f)
    else
      match r.Question with
      | [] => (.panic, f)
      | q :: _ =>
        let header : RR_Header := ⟨q.Name, q.Qtype, q.Qclass, s.ttl⟩
        match ServicesA.loop L s header records (SetReply r) f with
        | (none, f') => (.panic, f')
        | (some m, f') => (.ptr m, f')

/-- The loop of `ServicesSRV` over `records`: the message so far and the
fetches so far; `none` is a panic (`node.IP` on a nil `node`). -/
def ServicesSRV.loop (L : Lib) (s : Server) (q : Question) :
    List Record → Msg → List Fetch → Option Msg × List Fetch
  | [], m, fetched => (some m, fetched)
  | record :: rest, m, fetched =>
    let answer := RR.SRV ⟨q.Name, q.Qtype, q.Qclass, s.ttl⟩
      record.Priority record.Weight record.Port (record.Target ++ s.domain)
    let m := { m with Answer := m.Answer ++ [answer] }
    if !HasSuffix record.Target ".nodes." then
      ServicesSRV.loop L s q rest m fetched
    else
      match GetNode L s record.Target with
      | (.err _, f) => ServicesSRV.loop L s q rest m (fetched ++ f)
      | (.panic, f) => (none, fetched ++ f)
      | (.nil, f) => (none, fetched ++ f)
      | (.ptr node, f) =>
        ServicesSRV.loop L s q rest
          { m with Extra := m.Extra ++ [RR.A ⟨q.Name, TypeA, q.Qclass, s.ttl⟩ node.IP] }
          (fetched ++ f)

/-- The method `ServicesSRV`. -/
def ServicesSRV (L : Lib) (s : Server) (r : Msg) (name : String) :
    Ret Msg × List Fetch :=
  match GetService L s name with
  | (.error err, f) => (.err err, f)
  | (.ok records, f) =>
    if records.length = 0 then (.nil, f)
    else
      match r.Question with
      | [] => (.panic, f)
      | q :: _ =>
        match ServicesSRV.loop L s q records (SetReply r) f with
        | (none, f') => (.panic, f')
        | (some m, f') => (.ptr m, f')

/-- The method `NodesA`.  After the error check the reply header reads
`r.Question[0]` and the answer reads `node.IP`: both panic, the first on a
request without question, the second on the nil `node` of `(nil, nil)`. -/
def NodesA (L : Lib) (s : Server) (r : Msg) (name : String) :
    Ret Msg × List Fetch :=
  match GetNode L s name with
  | (.err err, f) => (.err err, f)
  | (.panic, f) => (.panic, f)
  | (.nil, f) => (.panic, f)
  | (.ptr node, f) =>
    match r.Question with
    | [] => (.panic, f)
    | q :: _ =>
      let header : RR_Header := ⟨q.Name, q.Qtype, q.Qclass, s.ttl⟩
      (.ptr { SetReply r with Answer := [RR.A header node.IP] }, f)

/-! ## The query router -/

/-- The `switch` of `ServeDNS` on the record family and the query type. -/
def route (L : Lib) (s : Server) (r : Msg) (name rType : String) (qType : Nat) :
    Ret Msg × List Fetch :=
  if rType = "services" then
    if qType = TypeA then ServicesA L s r name
    else if qType = TypeSRV then ServicesSRV L s r name
    else (.nil, [])
  else if rType = "nodes" then
    if qType = TypeA then NodesA L s r name
    else (.nil, [])
  else (.nil, [])

/-- The end of `ServeDNS`, after the `switch`: the error check, the nil check
and the write of the reply. -/
def respond (r : Msg) : Ret Msg × List Fetch → Outcome × List Fetch
  | (.panic, f) => (.panic, f)
  | (.err err, f) =>
    if IsKeyNotFound err then (.wrote (NameError r), f)
    else (.wrote (HandleFailed r), f)
  | (.nil, f) => (.wrote (NameError r), f)
  | (.ptr m, f) => (.wrote m, f)

/-- The method `ServeDNS`: what is written to the response writer, and the
fetches performed.  The three indexing expressions `r.Question[0]`,
`parts[:len(parts)-1]` and `parts[1]` panic when out of range. -/
def ServeDNS (L : Lib) (s : Server) (r : Msg) : Outcome × List Fetch :=
  match r.Question with
  | [] => (.panic, [])
  | q :: _ =>
    let question := q.Name
    let name := TrimSuffix question s.domain
    let parts := Split name '.'
    if parts.length = 0 then (.panic, [])
    else
      let parts := parts.take (parts.length - 1)
      if parts.length ≠ 2 then (.wrote (NameError r), [])
      else
        match parts.get? 1 with
        | none => (.panic, [])
        | some rType => respond r (route L s r name rType q.Qtype)

/-! ## A concrete library and store

The theorems below hold for every `Lib` and every `EtcdClient`.  To run the
program on concrete queries, this section gives one of each: `filepath.Join`
as the Go library computes it, a store that is a table of keys, and a decoder
that is a table of stored values. -/

/-- The path elements kept by Go `filepath.Clean`: empty and `.` elements are
dropped, `..` removes the element before it, and is itself dropped at the root
of a rooted path and kept at the start of a relative one. -/
def cleanParts (rooted : Bool) : List (List Char) → List (List Char) → List (List Char)
  | [], out => out.reverse
  | p :: ps, out =>
    if p = [] ∨ p = ['.'] then cleanParts rooted ps out
    else if p = ['.', '.'] then
      match out with
      | [] => if rooted then cleanParts rooted ps [] else cleanParts rooted ps [p]
      | o :: os =>
        if o = ['.', '.'] then cleanParts rooted ps (p :: out)
        else cleanParts rooted ps os
    else cleanParts rooted ps (p :: out)

/-- Go `filepath.Clean` for slash-separated paths. -/
def filepathClean (path : String) : String :=
  let rooted := path.data.head? = some '/'
  let parts := cleanParts rooted (splitChars '/' path.data) []
  let body := String.mk (['/'].intercalate parts)
  if rooted then "/" ++ body
  else if body = "" then "."
  else body

/-- Go `filepath.Join`: the elements from the first non-empty one on, joined
by slashes and cleaned; the empty string when every element is empty. -/
def filepathJoin (elem : List String) : String :=
  match elem.dropWhile (fun e => e = "") with
  | [] => ""
  | rest => filepathClean ("/".intercalate rest)

/-- A store holding `entries`: a key of the table is found, any other key
fails with the etcd error key-not-found. -/
def tableStore (entries : List (String × Response)) : EtcdClient where
  Get key _ _ :=
    match entries.lookup key with
    | some resp => .ok resp
    | none => .error (.etcd EcodeKeyNotFound "Key not found")

/-- The stored value of a node with the address 10.0.0.5. -/
def nodeValue : String := "\x7b\"ip\":\"10.0.0.5\"\x7d"

/-- The stored value of a node without an address: the empty JSON object. -/
def stubValue : String := "\x7b\x7d"

/-- The stored value of the endpoint `web1.nodes.`. -/
def web1Value : String :=
  "\x7b\"priority\":10,\"weight\":5,\"port\":80,\"target\":\"web1.nodes.\"\x7d"

/-- The stored value of the endpoint `external.example.com.`. -/
def externalValue : String :=
  "\x7b\"priority\":20,\"weight\":5,\"port\":80,\"target\":\"external.example.com.\"\x7d"

/-- The stored value of the endpoint `stub.nodes.`. -/
def stubEndpointValue : String :=
  "\x7b\"priority\":30,\"weight\":5,\"port\":80,\"target\":\"stub.nodes.\"\x7d"

/-- The stored value of an endpoint with an empty target. -/
def emptyTargetValue : String :=
  "\x7b\"priority\":1,\"weight\":1,\"port\":80,\"target\":\"\"\x7d"

/-- A decoder table for node values: what `json.Unmarshal` gives for
`nodeValue` (the 16-byte form of the address, as `net.ParseIP` returns it) and
for `stubValue`; every other value is taken not to decode. -/
def exampleUnmarshalNode (value : String) : Except String Node :=
  if value = nodeValue then
    .ok ⟨some [0, 0, 0, 0, 0, 0, 0, 0, 0, 0, 255, 255, 10, 0, 0, 5]⟩
  else if value = stubValue then .ok ⟨none⟩
  else .error "invalid character"

/-- A decoder table for service values: what `json.Unmarshal` gives for the
four endpoint values above; every other value is taken not to decode. -/
def exampleUnmarshalRecord (value : String) : Except String Record :=
  if value = web1Value then .ok ⟨10, 5, 80, "web1.nodes."⟩
  else if value = externalValue then .ok ⟨20, 5, 80, "external.example.com."⟩
  else if value = stubEndpointValue then .ok ⟨30, 5, 80, "stub.nodes."⟩
  else if value = emptyTargetValue then .ok ⟨1, 1, 80, ""⟩
  else .error "invalid character"

/-- The example library. -/
def exampleLib : Lib where
  UnmarshalNode := exampleUnmarshalNode
  UnmarshalRecord := exampleUnmarshalRecord
  Join := filepathJoin

/-- The store of the scenario of the specification: the service `api` with
the two endpoints `web1.nodes.` and `external.example.com.`, a child that does
not decode and a child with an empty target, and the node `web1`. -/
def scenarioStore : List (String × Response) :=
  [("/services/api",
      ⟨"", [⟨"/services/api/1", web1Value⟩, ⟨"/services/api/2", "not json"⟩,
            ⟨"/services/api/3", emptyTargetValue⟩, ⟨"/services/api/4", externalValue⟩]⟩),
   ("/nodes/web1", ⟨nodeValue, []⟩)]

/-- The server of the scenario: domain `svc.local.`, TTL 60. -/
def scenarioServer : Server where
  etcd := tableStore scenarioStore
  domain := "svc.local."
  prefix_ := "/"
  ttl := 60

/-- The SRV reply of the scenario: two SRV answers and one additional A
record. -/
def scenarioReply : Msg where
  Id := 7
  Response := true
  Rcode := RcodeSuccess
  Question := [⟨"api.services.svc.local.", TypeSRV, 1⟩]
  Answer :=
    [RR.SRV ⟨"api.services.svc.local.", TypeSRV, 1, 60⟩ 10 5 80 "web1.nodes.svc.local.",
     RR.SRV ⟨"api.services.svc.local.", TypeSRV, 1, 60⟩ 20 5 80
       "external.example.com.svc.local."]
  Extra :=
    [RR.A ⟨"api.services.svc.local.", TypeA, 1, 60⟩
       (some [0, 0, 0, 0, 0, 0, 0, 0, 0, 0, 255, 255, 10, 0, 0, 5])]

/-- The server of the examples: the defaults of `main` (domain
`suds.local.`, prefix `/`, TTL 0) over a table store. -/
def exampleServer (entries : List (String × Response)) : Server where
  etcd := tableStore entries
  domain := "suds.local."
  prefix_ := "/"
  ttl := 0

/-- A request with the single question `name`, of type `qtype` and class IN. -/
def query (name : String) (qtype : Nat) : Msg where
  Id := 7
  Response := false
  Rcode := RcodeSuccess
  Question := [⟨name, qtype, 1⟩]
  Answer := []
  Extra := []

/-- A store with one service `api` of a single endpoint, whose target
`stub.nodes.` names a node stored without an address. -/
def stubStore : List (String × Response) :=
  [("/services/api", ⟨"", [⟨"/services/api/1", stubEndpointValue⟩]⟩),
   ("/nodes/stub", ⟨stubValue, []⟩)]

/-- The store of the scenario with the two endpoints listed the other way
round: the endpoint of priority 20 first, the one of priority 10 second. -/
def reversedStore : List (String × Response) :=
  [("/services/api",
      ⟨"", [⟨"/services/api/4", externalValue⟩, ⟨"/services/api/1", web1Value⟩]⟩),
   ("/nodes/web1", ⟨nodeValue, []⟩)]

/-- The SRV reply on `reversedStore`: the answers in the order of the
listing, and the additional A record of `web1`. -/
def reversedReply : Msg where
  Id := 7
  Response := true
  Rcode := RcodeSuccess
  Question := [⟨"api.services.suds.local.", TypeSRV, 1⟩]
  Answer :=
    [RR.SRV ⟨"api.services.suds.local.", TypeSRV, 1, 0⟩ 20 5 80
       "external.example.com.suds.local.",
     RR.SRV ⟨"api.services.suds.local.", TypeSRV, 1, 0⟩ 10 5 80 "web1.nodes.suds.local."]
  Extra :=
    [RR.A ⟨"api.services.suds.local.", TypeA, 1, 0⟩
       (some [0, 0, 0, 0, 0, 0, 0, 0, 0, 0, 255, 255, 10, 0, 0, 5])]

/-- A store with the service `api` whose directory holds no valid endpoint: a
child that does not decode and a child with an empty target. -/
def invalidStore : List (String × Response) :=
  [("/services/api",
      ⟨"", [⟨"/services/api/2", "not json"⟩, ⟨"/services/api/3", emptyTargetValue⟩]⟩)]

/-- A store that cannot be reached: every fetch fails with an error that is
not an etcd error. -/
def downStore : EtcdClient where
  Get _ _ _ := .error (.other "connection refused")

/-- A store that answers every fetch with an etcd error other than
key-not-found: the etcd error of code 300. -/
def faultyStore : EtcdClient where
  Get _ _ _ := .error (.etcd 300 "Raft Internal Error")

/-- The server of the examples over an arbitrary client. -/
def exampleServerOn (etcd : EtcdClient) : Server where
  etcd := etcd
  domain := "suds.local."
  prefix_ := "/"
  ttl := 0

/-- A store with the service `api` of two valid endpoints, `web1.nodes.` and
`external.example.com.`, and no node at all. -/
def unresolvedStore : List (String × Response) :=
  [("/services/api",
      ⟨"", [⟨"/services/api/4", externalValue⟩, ⟨"/services/api/1", web1Value⟩]⟩)]

/-- The client `e` with the answer to the recursive fetches replaced by the
listing `resp`; the other fetches are those of `e`. -/
def withListing (e : EtcdClient) (resp : Response) : EtcdClient where
  Get key sort recursive :=
    if recursive = true then .ok resp else e.Get key sort recursive

/-! ## Definitions used in the statements -/

/-- Segments put back together with `sep` between them. -/
def joinSegs (sep : Char) : List (List Char) → List Char
  | [] => []
  | [w] => w
  | w :: v :: ws => w ++ sep :: joinSegs sep (v :: ws)

/-- The record a directory child contributes to `GetService`: its decoded
value when it decodes with a non-empty target. -/
def validRecord (L : Lib) (n : EtcdNode) : Option Record :=
  match L.UnmarshalRecord n.Value with
  | .error _ => none
  | .ok record => if record.Target = "" then none else some record

/-- The SRV answer `ServicesSRV` builds for one endpoint. -/
def srvAnswer (s : Server) (q : Question) (record : Record) : RR :=
  RR.SRV ⟨q.Name, q.Qtype, q.Qclass, s.ttl⟩
    record.Priority record.Weight record.Port (record.Target ++ s.domain)

/-- The A record an endpoint contributes under `header`: the address of its
node when its target ends in `.nodes.` and `GetNode` returns a node. -/
def nodeRecord (L : Lib) (s : Server) (header : RR_Header) (record : Record) : Option RR :=
  if HasSuffix record.Target ".nodes." then
    match (GetNode L s record.Target).1 with
    | .ptr node => some (RR.A header node.IP)
    | _ => none
  else none

/-- No endpoint of `records` with a node target resolves to `(nil, nil)`,
the result of `GetNode` on a stored value without an address. -/
def noStub (L : Lib) (s : Server) (records : List Record) : Prop :=
  ∀ record ∈ records, HasSuffix record.Target ".nodes." = true →
    (GetNode L s record.Target).1 ≠ .nil

/-! ## Lemmas on the string helpers -/

theorem splitChars_ne_nil (sep : Char) (l : List Char) : splitChars sep l ≠ [] := by
  induction l with
  | nil => simp [splitChars]
  | cons c cs ih =>
    unfold splitChars
    split
    · simp
    · split <;> simp

theorem splitChars_of_not_mem {sep : Char} {a : List Char} (h : sep ∉ a) :
    splitChars sep a = [a] := by
  induction a with
  | nil => rfl
  | cons c cs ih =>
    have hc : c ≠ sep := fun e => h (e ▸ List.mem_cons_self _ _)
    have hcs : sep ∉ cs := fun m => h (List.mem_cons_of_mem _ m)
    simp [splitChars, hc, ih hcs]

theorem splitChars_append_sep {sep : Char} {a : List Char} (h : sep ∉ a)
    (rest : List Char) :
    splitChars sep (a ++ sep :: rest) = a :: splitChars sep rest := by
  induction a with
  | nil => simp [splitChars]
  | cons c cs ih =>
    have hc : c ≠ sep := fun e => h (e ▸ List.mem_cons_self _ _)
    have hcs : sep ∉ cs := fun m => h (List.mem_cons_of_mem _ m)
    simp [splitChars, hc, ih hcs]

theorem joinSegs_splitChars (sep : Char) (l : List Char) :
    joinSegs sep (splitChars sep l) = l := by
  induction l with
  | nil => rfl
  | cons c cs ih =>
    unfold splitChars
    split
    · next h =>
      cases hs : splitChars sep cs with
      | nil => exact absurd hs (splitChars_ne_nil sep cs)
      | cons w ws => rw [hs] at ih; simp [joinSegs, ih, h]
    · cases hs : splitChars sep cs with
      | nil => exact absurd hs (splitChars_ne_nil sep cs)
      | cons w ws =>
        rw [hs] at ih
        cases ws with
        | nil => simpa [joinSegs] using ih
        | cons v vs => simp only [joinSegs] at ih ⊢; simp [ih]

theorem Split_length_pos (s : String) (sep : Char) : 0 < (Split s sep).length := by
  unfold Split
  rw [List.length_map]
  exact List.length_pos.mpr (splitChars_ne_nil sep s.data)

theorem HasSuffix_append (a b : String) : HasSuffix (a ++ b) b = true := by
  simp [HasSuffix]

theorem TrimSuffix_append (a b : String) : TrimSuffix (a ++ b) b = a := by
  unfold TrimSuffix
  rw [if_pos (HasSuffix_append a b)]
  apply String.ext
  simp

theorem TrimSuffix_of_not_HasSuffix {s suffix : String}
    (h : HasSuffix s suffix = false) : TrimSuffix s suffix = s := by
  simp [TrimSuffix, h]

/-! ## Lemmas on the loops -/

theorem GetService_loop_eq (L : Lib) (nodes : List EtcdNode) (records : List Record) :
    GetService.loop L nodes records = records ++ nodes.filterMap (validRecord L) := by
  induction nodes generalizing records with
  | nil => simp [GetService.loop]
  | cons n rest ih =>
    unfold GetService.loop
    cases h : L.UnmarshalRecord n.Value with
    | error e => simp [ih, List.filterMap_cons, validRecord, h]
    | ok record =>
      by_cases ht : record.Target = ""
      · simp [ih, List.filterMap_cons, validRecord, h, ht]
      · simp [ih, List.filterMap_cons, validRecord, h, ht]

theorem ServicesSRV_loop_answer (L : Lib) (s : Server) (q : Question)
    (records : List Record) (m : Msg) (f : List Fetch) (m' : Msg) (f' : List Fetch)
    (h : ServicesSRV.loop L s q records m f = (some m', f')) :
    m'.Answer = m.Answer ++ records.map (srvAnswer s q) := by
  induction records generalizing m f with
  | nil =>
    simp only [ServicesSRV.loop, Prod.mk.injEq, Option.some.injEq] at h
    simp [← h.1]
  | cons record rest ih =>
    unfold ServicesSRV.loop at h
    simp only at h
    split at h
    · rw [ih _ _ h]; simp [srvAnswer]
    · split at h
      · rw [ih _ _ h]; simp [srvAnswer]
      · simp at h
      · simp at h
      · rw [ih _ _ h]; simp [srvAnswer]

theorem ServicesSRV_loop_fetched (L : Lib) (s : Server) (q : Question)
    (records : List Record) (m : Msg) (f : List Fetch) :
    ∃ t, (ServicesSRV.loop L s q records m f).2 = f ++ t := by
  induction records generalizing m f with
  | nil => exact ⟨[], by simp [ServicesSRV.loop]⟩
  | cons record rest ih =>
    unfold ServicesSRV.loop
    simp only
    split
    · exact ih _ _
    · split
      · obtain ⟨t, ht⟩ := ih (f := f ++ ‹List Fetch›) (m := _)
        exact ⟨_, by rw [ht, List.append_assoc]⟩
      · exact ⟨_, rfl⟩
      · exact ⟨_, rfl⟩
      · obtain ⟨t, ht⟩ := ih (f := f ++ ‹List Fetch›) (m := _)
        exact ⟨_, by rw [ht, List.append_assoc]⟩

theorem ServicesA_loop_fetched (L : Lib) (s : Server) (header : RR_Header)
    (records : List Record) (m : Msg) (f : List Fetch) :
    ∃ t, (ServicesA.loop L s header records m f).2 = f ++ t := by
  induction records generalizing m f with
  | nil => exact ⟨[], by simp [ServicesA.loop]⟩
  | cons record rest ih =>
    unfold ServicesA.loop
    split
    · exact ih _ _
    · split
      · obtain ⟨t, ht⟩ := ih (f := f ++ ‹List Fetch›) (m := _)
        exact ⟨_, by rw [ht, List.append_assoc]⟩
      · exact ⟨_, rfl⟩
      · exact ⟨_, rfl⟩
      · obtain ⟨t, ht⟩ := ih (f := f ++ ‹List Fetch›) (m := _)
        exact ⟨_, by rw [ht, List.append_assoc]⟩

theorem GetService_fetched (L : Lib) (s : Server) (name : String) :
    (GetService L s name).2 = [⟨serviceKey L s name, false, true⟩] := by
  unfold GetService
  simp only
  split <;> rfl

theorem GetNode_fetched (L : Lib) (s : Server) (name : String) :
    (GetNode L s name).2 = [⟨nodeKey L s name, false, false⟩] := by
  unfold GetNode
  simp only
  split
  · rfl
  · split
    · rfl
    · split <;> rfl

theorem ServicesSRV_fetched (L : Lib) (s : Server) (r : Msg) (name : String) :
    ∃ t, (ServicesSRV L s r name).2 = ⟨serviceKey L s name, false, true⟩ :: t := by
  have hf := GetService_fetched L s name
  unfold ServicesSRV
  rcases hg : GetService L s name with ⟨res, f⟩
  rw [hg] at hf
  simp only at hf
  subst hf
  cases res with
  | error e => exact ⟨[], rfl⟩
  | ok records =>
    simp only
    split
    · exact ⟨[], rfl⟩
    · cases hq : r.Question with
      | nil => exact ⟨[], rfl⟩
      | cons q rest =>
        simp only
        obtain ⟨t, ht⟩ := ServicesSRV_loop_fetched L s q records (SetReply r)
          [⟨serviceKey L s name, false, true⟩]
        rcases hl : ServicesSRV.loop L s q records (SetReply r)
          [⟨serviceKey L s name, false, true⟩] with ⟨res, f'⟩
        rw [hl] at ht
        simp only at ht
        subst ht
        cases res <;> exact ⟨t, rfl⟩

theorem ServicesA_fetched (L : Lib) (s : Server) (r : Msg) (name : String) :
    ∃ t, (ServicesA L s r name).2 = ⟨serviceKey L s name, false, true⟩ :: t := by
  have hf := GetService_fetched L s name
  unfold ServicesA
  rcases hg : GetService L s name with ⟨res, f⟩
  rw [hg] at hf
  simp only at hf
  subst hf
  cases res with
  | error e => exact ⟨[], rfl⟩
  | ok records =>
    simp only
    split
    · exact ⟨[], rfl⟩
    · cases hq : r.Question with
      | nil => exact ⟨[], rfl⟩
      | cons q rest =>
        simp only
        obtain ⟨t, ht⟩ := ServicesA_loop_fetched L s ⟨q.Name, q.Qtype, q.Qclass, s.ttl⟩
          records (SetReply r) [⟨serviceKey L s name, false, true⟩]
        rcases hl : ServicesA.loop L s ⟨q.Name, q.Qtype, q.Qclass, s.ttl⟩ records
          (SetReply r) [⟨serviceKey L s name, false, true⟩] with ⟨res, f'⟩
        rw [hl] at ht
        simp only at ht
        subst ht
        cases res <;> exact ⟨t, rfl⟩

theorem respond_fetched (r : Msg) (x : Ret Msg × List Fetch) :
    (respond r x).2 = x.2 := by
  rcases x with ⟨res, f⟩
  cases res <;> simp only [respond]
  split <;> rfl

/-! ## The replies of the service assemblers when no node lacks an address -/

theorem GetNode_ne_panic (L : Lib) (s : Server) (name : String) :
    (GetNode L s name).1 ≠ .panic := by
  unfold GetNode
  simp only
  split
  · simp
  · split
    · simp
    · split <;> simp

theorem ServicesSRV_loop_of_noStub (L : Lib) (s : Server) (q : Question)
    (records : List Record) (m : Msg) (f : List Fetch) (h : noStub L s records) :
    (ServicesSRV.loop L s q records m f).1
      = some { m with
          Answer := m.Answer ++ records.map (srvAnswer s q),
          Extra := m.Extra
            ++ records.filterMap (nodeRecord L s ⟨q.Name, TypeA, q.Qclass, s.ttl⟩) } := by
  induction records generalizing m f with
  | nil => simp [ServicesSRV.loop]
  | cons record rest ih =>
    have hrest : noStub L s rest := fun x hx => h x (List.mem_cons_of_mem _ hx)
    have hrec := h record (List.mem_cons_self _ _)
    unfold ServicesSRV.loop
    simp only
    by_cases hs : HasSuffix record.Target ".nodes." = true
    · have hnil := hrec hs
      have hpanic := GetNode_ne_panic L s record.Target
      rw [if_neg (by simp [hs])]
      rcases hg : GetNode L s record.Target with ⟨res, g⟩
      rw [hg] at hnil hpanic
      cases res with
      | nil => exact absurd rfl hnil
      | panic => exact absurd rfl hpanic
      | err e => simp [ih _ _ hrest, srvAnswer, nodeRecord, hs, hg]
      | ptr node => simp [ih _ _ hrest, srvAnswer, nodeRecord, hs, hg]
    · rw [if_pos (by simp [hs])]
      simp [ih _ _ hrest, srvAnswer, nodeRecord, hs]

theorem ServicesA_loop_of_noStub (L : Lib) (s : Server) (header : RR_Header)
    (records : List Record) (m : Msg) (f : List Fetch) (h : noStub L s records) :
    (ServicesA.loop L s header records m f).1
      = some { m with
          Answer := m.Answer ++ records.filterMap (nodeRecord L s header) } := by
  induction records generalizing m f with
  | nil => simp [ServicesA.loop]
  | cons record rest ih =>
    have hrest : noStub L s rest := fun x hx => h x (List.mem_cons_of_mem _ hx)
    have hrec := h record (List.mem_cons_self _ _)
    unfold ServicesA.loop
    by_cases hs : HasSuffix record.Target ".nodes." = true
    · have hnil := hrec hs
      have hpanic := GetNode_ne_panic L s record.Target
      rw [if_neg (by simp [hs])]
      rcases hg : GetNode L s record.Target with ⟨res, g⟩
      rw [hg] at hnil hpanic
      cases res with
      | nil => exact absurd rfl hnil
      | panic => exact absurd rfl hpanic
      | err e => simp [ih _ _ hrest, nodeRecord, hs, hg]
      | ptr node => simp [ih _ _ hrest, nodeRecord, hs, hg]
    · rw [if_pos (by simp [hs])]
      simp [ih _ _ hrest, nodeRecord, hs]

/-- When the service has a valid endpoint and none of its node targets is
stored without an address, `ServicesSRV` returns a reply with one SRV answer
for each endpoint and one additional A record for each endpoint whose node
resolves. -/
theorem ServicesSRV_of_noStub (L : Lib) (s : Server) (r : Msg) (name : String)
    (q : Question) (rest : List Question) (records : List Record)
    (hq : r.Question = q :: rest)
    (hg : (GetService L s name).1 = .ok records) (hne : records ≠ [])
    (h : noStub L s records) :
    (ServicesSRV L s r name).1
      = .ptr { SetReply r with
          Answer := records.map (srvAnswer s q),
          Extra := records.filterMap (nodeRecord L s ⟨q.Name, TypeA, q.Qclass, s.ttl⟩) } := by
  unfold ServicesSRV
  rcases hG : GetService L s name with ⟨res, g⟩
  rw [hG] at hg
  simp only at hg
  subst hg
  have hlen : records.length ≠ 0 := fun e => hne (List.length_eq_zero.mp e)
  simp only [hq, if_neg hlen]
  have hl := ServicesSRV_loop_of_noStub L s q records (SetReply r) g h
  rcases hL : ServicesSRV.loop L s q records (SetReply r) g with ⟨res, g'⟩
  rw [hL] at hl
  simp only at hl
  subst hl
  simp [SetReply]

/-- When the service has a valid endpoint and none of its node targets is
stored without an address, `ServicesA` returns a reply with one A answer for
each endpoint whose node resolves, in the order of the endpoints. -/
theorem ServicesA_of_noStub (L : Lib) (s : Server) (r : Msg) (name : String)
    (q : Question) (rest : List Question) (records : List Record)
    (hq : r.Question = q :: rest)
    (hg : (GetService L s name).1 = .ok records) (hne : records ≠ [])
    (h : noStub L s records) :
    (ServicesA L s r name).1
      = .ptr { SetReply r with
          Answer := records.filterMap
            (nodeRecord L s ⟨q.Name, q.Qtype, q.Qclass, s.ttl⟩) } := by
  unfold ServicesA
  rcases hG : GetService L s name with ⟨res, g⟩
  rw [hG] at hg
  simp only at hg
  subst hg
  have hlen : records.length ≠ 0 := fun e => hne (List.length_eq_zero.mp e)
  simp only [hq, if_neg hlen]
  have hl := ServicesA_loop_of_noStub L s ⟨q.Name, q.Qtype, q.Qclass, s.ttl⟩ records
    (SetReply r) g h
  rcases hL : ServicesA.loop L s ⟨q.Name, q.Qtype, q.Qclass, s.ttl⟩ records
    (SetReply r) g with ⟨res, g'⟩
  rw [hL] at hl
  simp only at hl
  subst hl
  simp [SetReply]

/-! ## Lemmas on the router -/

theorem ServeDNS_of_arity_ne (L : Lib) (s : Server) (r : Msg) (q : Question)
    (rest : List Question) (hq : r.Question = q :: rest)
    (h : ((Split (TrimSuffix q.Name s.domain) '.').dropLast).length ≠ 2) :
    ServeDNS L s r = (.wrote (NameError r), []) := by
  have hpos := Split_length_pos (TrimSuffix q.Name s.domain) '.'
  rw [List.dropLast_eq_take] at h
  unfold ServeDNS
  rw [hq]
  simp only [if_neg (Nat.pos_iff_ne_zero.mp hpos)]
  rw [if_pos h]

theorem ServeDNS_of_parts (L : Lib) (s : Server) (r : Msg) (q : Question)
    (rest : List Question) (seg0 rType : String) (hq : r.Question = q :: rest)
    (h : (Split (TrimSuffix q.Name s.domain) '.').dropLast = [seg0, rType]) :
    ServeDNS L s r
      = respond r (route L s r (TrimSuffix q.Name s.domain) rType q.Qtype) := by
  have hpos := Split_length_pos (TrimSuffix q.Name s.domain) '.'
  rw [List.dropLast_eq_take] at h
  unfold ServeDNS
  rw [hq]
  simp only [if_neg (Nat.pos_iff_ne_zero.mp hpos), h]
  simp

/-- The split of `seg0.rType.` is `[seg0, rType, ""]` when neither segment
holds a dot. -/
theorem Split_two_labels (seg0 rType : String) (h0 : '.' ∉ seg0.data)
    (h1 : '.' ∉ rType.data) :
    Split (seg0 ++ "." ++ rType ++ ".") '.' = [seg0, rType, ""] := by
  unfold Split
  have e : (seg0 ++ "." ++ rType ++ ".").data
      = seg0.data ++ '.' :: (rType.data ++ '.' :: []) := by
    simp [String.data_append]
  rw [e, splitChars_append_sep h0, splitChars_append_sep h1]
  rfl

/-- A name whose split is `[seg0, rType, ""]` is `seg0.rType.`. -/
theorem eq_of_Split_three (name seg0 rType : String)
    (h : Split name '.' = [seg0, rType, ""]) :
    name = seg0 ++ ("." ++ rType ++ ".") := by
  unfold Split at h
  have hs : splitChars '.' name.data = [seg0.data, rType.data, []] := by
    have := congrArg (List.map String.data) h
    simpa [List.map_map, Function.comp_def] using this
  have hj := joinSegs_splitChars '.' name.data
  rw [hs] at hj
  apply String.ext
  rw [← hj]
  simp [joinSegs, String.data_append]

theorem NodesA_fetched (L : Lib) (s : Server) (r : Msg) (name : String) :
    (NodesA L s r name).2 = [⟨nodeKey L s name, false, false⟩] := by
  have hf := GetNode_fetched L s name
  unfold NodesA
  rcases hg : GetNode L s name with ⟨res, f⟩
  rw [hg] at hf
  simp only at hf
  subst hf
  cases res with
  | ptr node => cases r.Question <;> rfl
  | nil => rfl
  | err e => rfl
  | panic => rfl

/-- The stripped name of the question `nm.nodes.<domain>` is `nm.nodes.`, and
the node name taken from it is `nm`. -/
theorem TrimSuffix_node_question (nm domain : String) :
    TrimSuffix (nm ++ ".nodes." ++ domain) domain = nm ++ ".nodes."
      ∧ TrimSuffix (nm ++ ".nodes.") ".nodes." = nm :=
  ⟨TrimSuffix_append _ _, TrimSuffix_append _ _⟩

theorem Split_node_name (nm : String) (h : '.' ∉ nm.data) :
    Split (nm ++ ".nodes.") '.' = [nm, "nodes", ""] := by
  have e : nm ++ ".nodes." = nm ++ "." ++ "nodes" ++ "." := by
    apply String.ext
    simp only [String.data_append, List.append_assoc]
    rfl
  rw [e]
  exact Split_two_labels nm "nodes" h (by decide)

theorem NameError_ne_HandleFailed (r : Msg) : NameError r ≠ HandleFailed r := by
  intro h
  have := congrArg Msg.Rcode h
  simp [NameError, HandleFailed, SetRcode, RcodeNameError, RcodeServerFailure] at this

theorem route_nodes_A (L : Lib) (s : Server) (r : Msg) (name : String) (qType : Nat)
    (h : qType = TypeA) : route L s r name "nodes" qType = NodesA L s r name := by
  subst h
  simp [route]

/-- The stripped name of the question `nm.nodes.<domain>` passes the arity
check with the segments `nm` and `nodes` when `nm` holds no dot. -/
theorem parts_node_question (nm domain : String) (hdot : '.' ∉ nm.data) :
    (Split (TrimSuffix (nm ++ ".nodes." ++ domain) domain) '.').dropLast
      = [nm, "nodes"] := by
  rw [(TrimSuffix_node_question nm domain).1, Split_node_name nm hdot]
  rfl

/-! ## Lemmas on the replies of the service assemblers -/

theorem GetService_of_get (L : Lib) (s : Server) (name : String) (resp : Response)
    (hget : s.etcd.Get (serviceKey L s name) false true = .ok resp) :
    GetService L s name
      = (.ok (resp.Nodes.filterMap (validRecord L)), [⟨serviceKey L s name, false, true⟩]) := by
  unfold GetService
  simp only [hget, GetService_loop_eq, List.nil_append]

theorem GetService_of_get_error (L : Lib) (s : Server) (name : String) (e : GoError)
    (hget : s.etcd.Get (serviceKey L s name) false true = .error e) :
    GetService L s name = (.error e, [⟨serviceKey L s name, false, true⟩]) := by
  unfold GetService
  simp only [hget]

theorem ServicesSRV_ptr_inv (L : Lib) (s : Server) (r : Msg) (name : String)
    (m : Msg) (f : List Fetch) (h : ServicesSRV L s r name = (.ptr m, f)) :
    ∃ records q rest g, GetService L s name = (.ok records, g) ∧ records ≠ []
      ∧ r.Question = q :: rest
      ∧ ServicesSRV.loop L s q records (SetReply r) g = (some m, f) := by
  unfold ServicesSRV at h
  rcases hg : GetService L s name with ⟨res, g⟩
  rw [hg] at h
  cases res with
  | error e => simp at h
  | ok records =>
    simp only at h
    split at h
    · simp at h
    · next hlen =>
      cases hq : r.Question with
      | nil => rw [hq] at h; simp at h
      | cons q rest =>
        rw [hq] at h
        simp only at h
        rcases hl : ServicesSRV.loop L s q records (SetReply r) g with ⟨res, g'⟩
        rw [hl] at h
        cases res with
        | none => simp at h
        | some m' =>
          simp only [Prod.mk.injEq, Ret.ptr.injEq] at h
          refine ⟨records, q, rest, g, rfl, ?_, rfl, ?_⟩
          · intro e; exact hlen (by rw [e]; rfl)
          · rw [hl, h.1, h.2]

theorem ServicesA_ptr_inv (L : Lib) (s : Server) (r : Msg) (name : String)
    (m : Msg) (f : List Fetch) (h : ServicesA L s r name = (.ptr m, f)) :
    ∃ records q rest g, GetService L s name = (.ok records, g) ∧ records ≠ []
      ∧ r.Question = q :: rest
      ∧ ServicesA.loop L s ⟨q.Name, q.Qtype, q.Qclass, s.ttl⟩ records (SetReply r) g
          = (some m, f) := by
  unfold ServicesA at h
  rcases hg : GetService L s name with ⟨res, g⟩
  rw [hg] at h
  cases res with
  | error e => simp at h
  | ok records =>
    simp only at h
    split at h
    · simp at h
    · next hlen =>
      cases hq : r.Question with
      | nil => rw [hq] at h; simp at h
      | cons q rest =>
        rw [hq] at h
        simp only at h
        rcases hl : ServicesA.loop L s ⟨q.Name, q.Qtype, q.Qclass, s.ttl⟩ records
          (SetReply r) g with ⟨res, g'⟩
        rw [hl] at h
        cases res with
        | none => simp at h
        | some m' =>
          simp only [Prod.mk.injEq, Ret.ptr.injEq] at h
          refine ⟨records, q, rest, g, rfl, ?_, rfl, ?_⟩
          · intro e; exact hlen (by rw [e]; rfl)
          · rw [hl, h.1, h.2]

theorem ServicesSRV_loop_extra (L : Lib) (s : Server) (q : Question)
    (records : List Record) (m : Msg) (f : List Fetch) (m' : Msg) (f' : List Fetch)
    (h : ServicesSRV.loop L s q records m f = (some m', f')) :
    m'.Extra = m.Extra
      ++ records.filterMap (nodeRecord L s ⟨q.Name, TypeA, q.Qclass, s.ttl⟩) := by
  induction records generalizing m f with
  | nil =>
    simp only [ServicesSRV.loop, Prod.mk.injEq, Option.some.injEq] at h
    simp [← h.1]
  | cons record rest ih =>
    unfold ServicesSRV.loop at h
    simp only at h
    by_cases hs : HasSuffix record.Target ".nodes." = true
    · rw [if_neg (by simp [hs])] at h
      rcases hg : GetNode L s record.Target with ⟨res, g⟩
      rw [hg] at h
      cases res with
      | nil => simp at h
      | panic => simp at h
      | err e => rw [ih _ _ h]; simp [nodeRecord, hs, hg]
      | ptr node => rw [ih _ _ h]; simp [nodeRecord, hs, hg]
    · rw [if_pos (by simp [hs])] at h
      rw [ih _ _ h]; simp [nodeRecord, hs]

theorem ServicesA_loop_answer (L : Lib) (s : Server) (header : RR_Header)
    (records : List Record) (m : Msg) (f : List Fetch) (m' : Msg) (f' : List Fetch)
    (h : ServicesA.loop L s header records m f = (some m', f')) :
    m'.Answer = m.Answer ++ records.filterMap (nodeRecord L s header) := by
  induction records generalizing m f with
  | nil =>
    simp only [ServicesA.loop, Prod.mk.injEq, Option.some.injEq] at h
    simp [← h.1]
  | cons record rest ih =>
    unfold ServicesA.loop at h
    by_cases hs : HasSuffix record.Target ".nodes." = true
    · rw [if_neg (by simp [hs])] at h
      rcases hg : GetNode L s record.Target with ⟨res, g⟩
      rw [hg] at h
      cases res with
      | nil => simp at h
      | panic => simp at h
      | err e => rw [ih _ _ h]; simp [nodeRecord, hs, hg]
      | ptr node => rw [ih _ _ h]; simp [nodeRecord, hs, hg]
    · rw [if_pos (by simp [hs])] at h
      rw [ih _ _ h]; simp [nodeRecord, hs]

/-! ## Lemmas on service questions and on the switch -/

/-- The stripped name of the question `nm.services.<domain>` is
`nm.services.`, and the service name taken from it is `nm`. -/
theorem TrimSuffix_service_question (nm domain : String) :
    TrimSuffix (nm ++ ".services." ++ domain) domain = nm ++ ".services."
      ∧ TrimSuffix (nm ++ ".services.") ".services." = nm :=
  ⟨TrimSuffix_append _ _, TrimSuffix_append _ _⟩

theorem Split_service_name (nm : String) (h : '.' ∉ nm.data) :
    Split (nm ++ ".services.") '.' = [nm, "services", ""] := by
  have e : nm ++ ".services." = nm ++ "." ++ "services" ++ "." := by
    apply String.ext
    simp only [String.data_append, List.append_assoc]
    rfl
  rw [e]
  exact Split_two_labels nm "services" h (by decide)

/-- The stripped name of the question `nm.services.<domain>` passes the arity
check with the segments `nm` and `services` when `nm` holds no dot. -/
theorem parts_service_question (nm domain : String) (hdot : '.' ∉ nm.data) :
    (Split (TrimSuffix (nm ++ ".services." ++ domain) domain) '.').dropLast
      = [nm, "services"] := by
  rw [(TrimSuffix_service_question nm domain).1, Split_service_name nm hdot]
  rfl

theorem route_services_A (L : Lib) (s : Server) (r : Msg) (name : String) (qType : Nat)
    (h : qType = TypeA) : route L s r name "services" qType = ServicesA L s r name := by
  subst h
  simp [route]

theorem route_services_SRV (L : Lib) (s : Server) (r : Msg) (name : String)
    (qType : Nat) (h : qType = TypeSRV) :
    route L s r name "services" qType = ServicesSRV L s r name := by
  subst h
  simp [route, TypeSRV, TypeA]

/-- The `switch` selects no handler: the family is neither `services` nor
`nodes`, or the query type is not one the family serves. -/
theorem route_unsupported (L : Lib) (s : Server) (r : Msg) (name rType : String)
    (qType : Nat)
    (h : (rType ≠ "services" ∧ rType ≠ "nodes")
      ∨ (rType = "services" ∧ qType ≠ TypeA ∧ qType ≠ TypeSRV)
      ∨ (rType = "nodes" ∧ qType ≠ TypeA)) :
    route L s r name rType qType = (.nil, []) := by
  unfold route
  rcases h with ⟨h1, h2⟩ | ⟨h1, h2, h3⟩ | ⟨h1, h2⟩
  · rw [if_neg h1, if_neg h2]
  · rw [if_pos h1, if_neg h2, if_neg h3]
  · subst h1
    rw [if_neg (by decide), if_pos rfl, if_neg h2]

/-! ## Lemmas on a change of the store -/

theorem GetNode_congr (L : Lib) (s : Server) (e' : EtcdClient)
    (h : ∀ t, e'.Get (nodeKey L s t) false false = s.etcd.Get (nodeKey L s t) false false)
    (name : String) :
    GetNode L { s with etcd := e' } name = GetNode L s name := by
  have hk : nodeKey L { s with etcd := e' } name = nodeKey L s name := rfl
  unfold GetNode
  simp only [hk, h name]

theorem ServicesA_loop_congr (L : Lib) (s : Server) (e' : EtcdClient)
    (h : ∀ t, e'.Get (nodeKey L s t) false false = s.etcd.Get (nodeKey L s t) false false)
    (header : RR_Header) (records : List Record) (m : Msg) (f : List Fetch) :
    ServicesA.loop L { s with etcd := e' } header records m f
      = ServicesA.loop L s header records m f := by
  induction records generalizing m f with
  | nil => rfl
  | cons record rest ih =>
    unfold ServicesA.loop
    simp only [GetNode_congr L s e' h, ih]

theorem ServicesSRV_loop_congr (L : Lib) (s : Server) (e' : EtcdClient)
    (h : ∀ t, e'.Get (nodeKey L s t) false false = s.etcd.Get (nodeKey L s t) false false)
    (q : Question) (records : List Record) (m : Msg) (f : List Fetch) :
    ServicesSRV.loop L { s with etcd := e' } q records m f
      = ServicesSRV.loop L s q records m f := by
  induction records generalizing m f with
  | nil => rfl
  | cons record rest ih =>
    unfold ServicesSRV.loop
    simp only [GetNode_congr L s e' h, ih]

/-- A directory child that decodes to an empty target, or does not decode,
does not change the valid endpoints of a listing. -/
theorem filterMap_validRecord_remove (L : Lib) (pre post : List EtcdNode) (n : EtcdNode)
    (h : validRecord L n = none) :
    (pre ++ n :: post).filterMap (validRecord L) = (pre ++ post).filterMap (validRecord L) := by
  simp [List.filterMap_append, List.filterMap_cons, h]

/-- A listing whose children all fail to decode or decode to an empty target
has no valid endpoint. -/
theorem filterMap_validRecord_eq_nil (L : Lib) (nodes : List EtcdNode)
    (h : ∀ n ∈ nodes, (∃ msg, L.UnmarshalRecord n.Value = .error msg)
      ∨ (∃ record, L.UnmarshalRecord n.Value = .ok record ∧ record.Target = "")) :
    nodes.filterMap (validRecord L) = [] := by
  rw [List.filterMap_eq_nil_iff]
  intro n hn
  rcases h n hn with ⟨msg, hm⟩ | ⟨record, hr, ht⟩
  · simp [validRecord, hm]
  · simp [validRecord, hr, ht]

theorem HandleFailed_Rcode (r : Msg) : (HandleFailed r).Rcode = RcodeServerFailure := rfl

theorem NameError_Rcode (r : Msg) : (NameError r).Rcode = RcodeNameError := rfl

theorem GetNode_of_get_error (L : Lib) (s : Server) (name : String) (e : GoError)
    (hget : s.etcd.Get (nodeKey L s name) false false = .error e) :
    GetNode L s name = (.err e, [⟨nodeKey L s name, false, false⟩]) := by
  unfold GetNode
  simp only [hget]

theorem GetNode_of_decode_error (L : Lib) (s : Server) (name : String) (resp : Response)
    (msg : String)
    (hget : s.etcd.Get (nodeKey L s name) false false = .ok resp)
    (hdec : L.UnmarshalNode resp.Value = .error msg) :
    GetNode L s name = (.err (.json msg), [⟨nodeKey L s name, false, false⟩]) := by
  unfold GetNode
  simp only [hget, hdec]

theorem respond_err (r : Msg) (e : GoError) (f : List Fetch) (h : IsKeyNotFound e = false) :
    respond r (.err e, f) = (.wrote (HandleFailed r), f) := by
  simp [respond, h]

theorem GetNode_ptr_inv (L : Lib) (s : Server) (name : String) (node : Node)
    (h : (GetNode L s name).1 = .ptr node) :
    ∃ resp ip, s.etcd.Get (nodeKey L s name) false false = .ok resp
      ∧ L.UnmarshalNode resp.Value = .ok node ∧ node.IP = some ip := by
  unfold GetNode at h
  simp only at h
  cases hg : s.etcd.Get (nodeKey L s name) false false with
  | error e => rw [hg] at h; simp at h
  | ok resp =>
    rw [hg] at h
    simp only at h
    cases hd : L.UnmarshalNode resp.Value with
    | error msg => rw [hd] at h; simp at h
    | ok node' =>
      rw [hd] at h
      simp only at h
      cases hip : node'.IP with
      | none => rw [hip] at h; simp at h
      | some ip =>
        rw [hip] at h
        simp only [Ret.ptr.injEq] at h
        subst h
        exact ⟨resp, ip, rfl, hd, hip⟩

/-- The endpoints that yield no A record: the target lacks the node suffix, or
`GetNode` returns an error. -/
theorem filterMap_nodeRecord_eq_nil (L : Lib) (s : Server) (header : RR_Header)
    (records : List Record)
    (h : ∀ record ∈ records, HasSuffix record.Target ".nodes." = false
      ∨ ∃ e, (GetNode L s record.Target).1 = .err e) :
    records.filterMap (nodeRecord L s header) = [] := by
  rw [List.filterMap_eq_nil_iff]
  intro record hr
  rcases h record hr with hs | ⟨e, he⟩
  · simp [nodeRecord, hs]
  · simp [nodeRecord, he]

theorem noStub_of_no_record (L : Lib) (s : Server) (records : List Record)
    (h : ∀ record ∈ records, HasSuffix record.Target ".nodes." = false
      ∨ ∃ e, (GetNode L s record.Target).1 = .err e) :
    noStub L s records := by
  intro record hr hs
  rcases h record hr with hs' | ⟨e, he⟩
  · rw [hs] at hs'; exact absurd hs' (by decide)
  · rw [he]; simp

theorem respond_panic (r : Msg) (x : Ret Msg × List Fetch)
    (h : (respond r x).1 = .panic) : x.1 = .panic := by
  rcases x with ⟨res, f⟩
  cases res with
  | panic => rfl
  | nil => simp [respond] at h
  | ptr m => simp [respond] at h
  | err e =>
    simp only [respond] at h
    split at h <;> simp at h

/-! ## The claims -/

/-- C1 (the code departs from the claim).  A service `api` with one valid
endpoint (N = 1) whose target `stub.nodes.` ends in the node suffix (M = 1) and
whose node is stored without an address (K = 1): `GetNode` returns
`(nil, nil)`, and `ServicesSRV` reads `node.IP` on the nil node and panics
instead of returning a reply with one answer and no additional record. -/
theorem C1_ServicesSRV_node_without_address_panics :
    (GetService exampleLib (exampleServer stubStore) "api.services.").1
        = .ok [⟨30, 5, 80, "stub.nodes."⟩]
      ∧ HasSuffix "stub.nodes." ".nodes." = true
      ∧ (GetNode exampleLib (exampleServer stubStore) "stub.nodes.").1 = .nil
      ∧ ServicesSRV exampleLib (exampleServer stubStore)
          (query "api.services.suds.local." TypeSRV) "api.services."
        = (.panic, [⟨"/services/api", false, true⟩, ⟨"/nodes/stub", false, false⟩]) := by
  decide

/-- C2 (the code departs from the claim).  An A query for
`foo.nodes.suds.local.` whose stored value decodes to a node without an
address: `GetNode` returns `(nil, nil)`, `NodesA` reads `node.IP` on the nil
node, and `ServeDNS` panics without writing a name-error. -/
theorem C2_ServeDNS_node_without_address_panics :
    (GetNode exampleLib (exampleServer [("/nodes/foo", ⟨stubValue, []⟩)]) "foo.nodes.").1
        = .nil
      ∧ ServeDNS exampleLib (exampleServer [("/nodes/foo", ⟨stubValue, []⟩)])
          (query "foo.nodes.suds.local." TypeA)
        = (.panic, [⟨"/nodes/foo", false, false⟩]) := by
  decide

/-- C3 (counterexample).  Domain `suds.local.`, question `foo.nodes.` of type
A, a store holding the node `foo`: the question does not end with the domain,
yet `ServeDNS` fetches `/nodes/foo` and writes a success reply with the A
record of the node, not a name-error. -/
theorem C3_question_outside_domain_is_routed :
    HasSuffix "foo.nodes." "suds.local." = false
      ∧ ServeDNS exampleLib
          (exampleServer [("/nodes/foo", ⟨nodeValue, []⟩)])
          (query "foo.nodes." TypeA)
        = (.wrote
            { Id := 7, Response := true, Rcode := RcodeSuccess,
              Question := [⟨"foo.nodes.", TypeA, 1⟩],
              Answer := [RR.A ⟨"foo.nodes.", TypeA, 1, 0⟩
                (some [0, 0, 0, 0, 0, 0, 0, 0, 0, 0, 255, 255, 10, 0, 0, 5])],
              Extra := [] },
           [⟨"/nodes/foo", false, false⟩])
      ∧ (ServeDNS exampleLib
          (exampleServer [("/nodes/foo", ⟨nodeValue, []⟩)])
          (query "foo.nodes." TypeA)).1
        ≠ .wrote (NameError (query "foo.nodes." TypeA))
      ∧ (ServeDNS exampleLib
          (exampleServer [("/nodes/foo", ⟨nodeValue, []⟩)])
          (query "foo.nodes." TypeA)).2 ≠ [] := by
  decide

/-- C3 (amended).  For a question name that does not end with the configured
domain, `ServeDNS` strips nothing and parses the whole question name: it
writes a name-error without any fetch when that name, split on `.` with its
final segment dropped, is not of exactly two segments, and otherwise routes
the unstripped name on its second segment like any other query. -/
theorem C3_question_outside_domain_parsed_whole (L : Lib) (s : Server) (r : Msg)
    (q : Question) (rest : List Question) (hq : r.Question = q :: rest)
    (h : HasSuffix q.Name s.domain = false) :
    TrimSuffix q.Name s.domain = q.Name
      ∧ (((Split q.Name '.').dropLast).length ≠ 2 →
          ServeDNS L s r = (.wrote (NameError r), [])
            ∧ (NameError r).Rcode = RcodeNameError)
      ∧ (∀ seg0 rType, (Split q.Name '.').dropLast = [seg0, rType] →
          ServeDNS L s r = respond r (route L s r q.Name rType q.Qtype)) := by
  have ht := TrimSuffix_of_not_HasSuffix h
  refine ⟨ht, ?_, ?_⟩
  · intro hn
    exact ⟨ServeDNS_of_arity_ne L s r q rest hq (by rw [ht]; exact hn), rfl⟩
  · intro seg0 rType hp
    have := ServeDNS_of_parts L s r q rest seg0 rType hq (by rw [ht]; exact hp)
    rw [ht] at this
    exact this

/-- C3 (amended), at domain `suds.local.` and the question `foo.bar.nodes.`,
which has three segments and is refused without a fetch. -/
theorem C3_question_outside_domain_parsed_whole_witness :
    HasSuffix "foo.bar.nodes." "suds.local." = false
      ∧ ((Split "foo.bar.nodes." '.').dropLast).length ≠ 2
      ∧ ServeDNS exampleLib (exampleServer []) (query "foo.bar.nodes." TypeA)
        = (.wrote (NameError (query "foo.bar.nodes." TypeA)), []) :=
  ⟨by decide, by decide,
    ((C3_question_outside_domain_parsed_whole exampleLib (exampleServer [])
      (query "foo.bar.nodes." TypeA) ⟨"foo.bar.nodes.", TypeA, 1⟩ [] rfl
      (by decide)).2.1 (by decide)).1⟩

/-- C4.  Whatever the question name and the domain, when the name with the
domain suffix stripped, split on `.` and with its final segment dropped, is
not of exactly two segments, `ServeDNS` writes the name-error reply (response
code name-error, which is not server-failure) and performs no fetch. -/
theorem C4_arity_check_gives_name_error (L : Lib) (s : Server) (r : Msg)
    (q : Question) (rest : List Question) (hq : r.Question = q :: rest)
    (h : ((Split (TrimSuffix q.Name s.domain) '.').dropLast).length ≠ 2) :
    ServeDNS L s r = (.wrote (NameError r), [])
      ∧ (NameError r).Rcode = RcodeNameError
      ∧ (NameError r).Rcode ≠ RcodeServerFailure
      ∧ (ServeDNS L s r).1 ≠ .wrote (HandleFailed r) := by
  have e := ServeDNS_of_arity_ne L s r q rest hq h
  have hne : (NameError r).Rcode ≠ RcodeServerFailure := by
    simp [NameError, SetRcode, RcodeNameError, RcodeServerFailure]
  refine ⟨e, rfl, hne, ?_⟩
  rw [e]
  intro hc
  injection hc with hm
  exact hne (by rw [hm]; rfl)

/-- C4 at the question `a.b.nodes.suds.local.`, of three labels before the
domain. -/
theorem C4_arity_check_gives_name_error_witness :
    ((Split (TrimSuffix "a.b.nodes.suds.local." "suds.local.") '.').dropLast).length ≠ 2
      ∧ ServeDNS exampleLib (exampleServer stubStore) (query "a.b.nodes.suds.local." TypeA)
        = (.wrote (NameError (query "a.b.nodes.suds.local." TypeA)), []) :=
  ⟨by decide,
    (C4_arity_check_gives_name_error exampleLib (exampleServer stubStore)
      (query "a.b.nodes.suds.local." TypeA) ⟨"a.b.nodes.suds.local.", TypeA, 1⟩ [] rfl
      (by decide)).1⟩

/-- C5 (counterexample).  Domain `suds.local.`, question
`a.nodes.xsuds.local.` of type A: the stripped name `a.nodes.x` passes the
arity check with segments `a` and `nodes`, and the node fetch reads
`/nodes/a.nodes.x`, not the path `/nodes/a` built from segment 0.  The same
holds for the service fetch of `a.services.xsuds.local.`. -/
theorem C5_fetch_key_is_not_built_from_segment0 :
    (Split (TrimSuffix "a.nodes.xsuds.local." "suds.local.") '.').dropLast = ["a", "nodes"]
      ∧ (ServeDNS exampleLib (exampleServer []) (query "a.nodes.xsuds.local." TypeA)).2
        = [⟨"/nodes/a.nodes.x", false, false⟩]
      ∧ (ServeDNS exampleLib (exampleServer []) (query "a.nodes.xsuds.local." TypeA)).2
        ≠ [⟨exampleLib.Join ["/", (exampleServer []).prefix_, "nodes", "a"], false, false⟩]
      ∧ (Split (TrimSuffix "a.services.xsuds.local." "suds.local.") '.').dropLast
        = ["a", "services"]
      ∧ (ServeDNS exampleLib (exampleServer []) (query "a.services.xsuds.local." TypeSRV)).2
        = [⟨"/services/a.services.x", false, true⟩]
      ∧ (ServeDNS exampleLib (exampleServer []) (query "a.services.xsuds.local." TypeSRV)).2
        ≠ [⟨exampleLib.Join ["/", (exampleServer []).prefix_, "services", "a"], false, true⟩] := by
  decide

/-- C5 (amended).  When `ServeDNS` passes the arity check with the segments
`seg0` and `rType`, the name used to build the store path is the stripped name
with a trailing `.nodes.` (node lookup) or `.services.` (service lookup)
trimmed: the only fetch of a node A query reads
`join("/", prefix, "nodes", TrimSuffix(name, ".nodes."))` and the first fetch
of a service A or SRV query reads
`join("/", prefix, "services", TrimSuffix(name, ".services."))`.  That name is
segment 0 whenever the final segment dropped by the split is empty. -/
theorem C5_fetch_key_trims_family_suffix (L : Lib) (s : Server) (r : Msg)
    (q : Question) (rest : List Question) (seg0 rType : String)
    (hq : r.Question = q :: rest)
    (h : (Split (TrimSuffix q.Name s.domain) '.').dropLast = [seg0, rType]) :
    (rType = "nodes" → q.Qtype = TypeA →
        (ServeDNS L s r).2
          = [⟨L.Join ["/", s.prefix_, "nodes",
                TrimSuffix (TrimSuffix q.Name s.domain) ".nodes."], false, false⟩])
      ∧ (rType = "services" → (q.Qtype = TypeA ∨ q.Qtype = TypeSRV) →
        ∃ t, (ServeDNS L s r).2
          = ⟨L.Join ["/", s.prefix_, "services",
                TrimSuffix (TrimSuffix q.Name s.domain) ".services."], false, true⟩ :: t)
      ∧ (Split (TrimSuffix q.Name s.domain) '.' = [seg0, rType, ""] →
        (rType = "nodes" → TrimSuffix (TrimSuffix q.Name s.domain) ".nodes." = seg0)
          ∧ (rType = "services" →
            TrimSuffix (TrimSuffix q.Name s.domain) ".services." = seg0)) := by
  have e := ServeDNS_of_parts L s r q rest seg0 rType hq h
  refine ⟨?_, ?_, ?_⟩
  · intro hr ht
    rw [e, respond_fetched]
    subst hr
    simp only [route, ht, if_true]
    exact NodesA_fetched L s r _
  · intro hr ht
    rw [e, respond_fetched]
    subst hr
    simp only [route, if_true]
    rcases ht with ht | ht
    · rw [if_pos ht]
      exact ServicesA_fetched L s r _
    · rw [if_neg (by rw [ht]; decide), if_pos ht]
      exact ServicesSRV_fetched L s r _
  · intro h3
    have hname := eq_of_Split_three _ _ _ h3
    constructor
    · intro hr
      subst hr
      rw [hname]
      exact TrimSuffix_append seg0 ".nodes."
    · intro hr
      subst hr
      rw [hname]
      exact TrimSuffix_append seg0 ".services."

/-- C5 (amended) at domain `suds.local.` and the question
`a.nodes.xsuds.local.` of type A. -/
theorem C5_fetch_key_trims_family_suffix_witness :
    (Split (TrimSuffix "a.nodes.xsuds.local." "suds.local.") '.').dropLast = ["a", "nodes"]
      ∧ (ServeDNS exampleLib (exampleServer []) (query "a.nodes.xsuds.local." TypeA)).2
        = [⟨exampleLib.Join ["/", (exampleServer []).prefix_, "nodes",
              TrimSuffix (TrimSuffix "a.nodes.xsuds.local." "suds.local.") ".nodes."],
            false, false⟩] :=
  ⟨by decide,
    (C5_fetch_key_trims_family_suffix exampleLib (exampleServer [])
      (query "a.nodes.xsuds.local." TypeA) ⟨"a.nodes.xsuds.local.", TypeA, 1⟩ []
      "a" "nodes" rfl (by decide)).1 rfl rfl⟩

/-- C6.  When `ServicesSRV` returns a reply, its answer section is, endpoint
by endpoint, one SRV record whose target is the stored target of the endpoint
followed directly by the configured domain, with nothing in between. -/
theorem C6_srv_target_is_stored_target_then_domain (L : Lib) (s : Server) (r : Msg)
    (name : String) (m : Msg) (f : List Fetch)
    (h : ServicesSRV L s r name = (.ptr m, f)) :
    ∃ records q, (GetService L s name).1 = .ok records
      ∧ r.Question.head? = some q
      ∧ m.Answer = records.map (fun record =>
          RR.SRV ⟨q.Name, q.Qtype, q.Qclass, s.ttl⟩
            record.Priority record.Weight record.Port (record.Target ++ s.domain)) := by
  unfold ServicesSRV at h
  rcases hg : GetService L s name with ⟨res, g⟩
  rw [hg] at h
  cases res with
  | error e => simp at h
  | ok records =>
    simp only at h
    split at h
    · simp at h
    · cases hq : r.Question with
      | nil => rw [hq] at h; simp at h
      | cons q rest =>
        rw [hq] at h
        simp only at h
        rcases hl : ServicesSRV.loop L s q records (SetReply r) g with ⟨res, g'⟩
        rw [hl] at h
        cases res with
        | none => simp at h
        | some m' =>
          simp only [Prod.mk.injEq, Ret.ptr.injEq] at h
          have ha := ServicesSRV_loop_answer L s q records (SetReply r) g m' g' hl
          refine ⟨records, q, rfl, rfl, ?_⟩
          rw [← h.1, ha]
          simp [SetReply, srvAnswer]

/-- C6 on the scenario of the specification: domain `svc.local.`, stored
targets `web1.nodes.` and `external.example.com.` give the SRV targets
`web1.nodes.svc.local.` and `external.example.com.svc.local.`. -/
theorem C6_srv_target_is_stored_target_then_domain_witness :
    ServicesSRV exampleLib scenarioServer (query "api.services.svc.local." TypeSRV)
        "api.services."
      = (.ptr scenarioReply,
         [⟨"/services/api", false, true⟩, ⟨"/nodes/web1", false, false⟩])
      ∧ ∃ records q,
          (GetService exampleLib scenarioServer "api.services.").1 = .ok records
            ∧ (query "api.services.svc.local." TypeSRV).Question.head? = some q
            ∧ scenarioReply.Answer
              = records.map (fun record =>
                  RR.SRV ⟨q.Name, q.Qtype, q.Qclass, scenarioServer.ttl⟩
                    record.Priority record.Weight record.Port
                    (record.Target ++ scenarioServer.domain)) :=
  ⟨by decide,
    C6_srv_target_is_stored_target_then_domain exampleLib scenarioServer
      (query "api.services.svc.local." TypeSRV) "api.services." scenarioReply
      [⟨"/services/api", false, true⟩, ⟨"/nodes/web1", false, false⟩] (by decide)⟩

/-- C7.  For the question `nm.nodes.<domain>`, when the value stored at the
node path of `nm` decodes to a node with the address `ip`, `NodesA` returns a
success reply whose answer section is exactly one A record carrying `ip`, with
the name, type and class of the question and the configured TTL, after the
single fetch of that path; and when the question is of type A and `nm` holds
no dot, `ServeDNS` writes that reply. -/
theorem C7_NodesA_single_A_record (L : Lib) (s : Server) (r : Msg) (q : Question)
    (rest : List Question) (nm : String) (resp : Response) (node : Node) (ip : IP)
    (hq : r.Question = q :: rest)
    (hn : q.Name = nm ++ ".nodes." ++ s.domain)
    (hget : s.etcd.Get (L.Join ["/", s.prefix_, "nodes", nm]) false false = .ok resp)
    (hdec : L.UnmarshalNode resp.Value = .ok node)
    (hip : node.IP = some ip) :
    ∃ m, NodesA L s r (TrimSuffix q.Name s.domain)
          = (.ptr m, [⟨L.Join ["/", s.prefix_, "nodes", nm], false, false⟩])
      ∧ m.Answer = [RR.A ⟨q.Name, q.Qtype, q.Qclass, s.ttl⟩ (some ip)]
      ∧ m.Extra = []
      ∧ m.Rcode = RcodeSuccess
      ∧ (q.Qtype = TypeA → '.' ∉ nm.data →
          ServeDNS L s r
            = (.wrote m, [⟨L.Join ["/", s.prefix_, "nodes", nm], false, false⟩])) := by
  obtain ⟨h1, h2⟩ := TrimSuffix_node_question nm s.domain
  have hN : NodesA L s r (TrimSuffix q.Name s.domain)
      = (.ptr { SetReply r with
                Answer := [RR.A ⟨q.Name, q.Qtype, q.Qclass, s.ttl⟩ (some ip)] },
         [⟨L.Join ["/", s.prefix_, "nodes", nm], false, false⟩]) := by
    have hname : TrimSuffix q.Name s.domain = nm ++ ".nodes." := by rw [hn]; exact h1
    rw [hname]
    unfold NodesA GetNode nodeKey
    simp only [h2, hget, hdec, hip, hq]
  refine ⟨_, hN, rfl, rfl, rfl, ?_⟩
  intro ht hdot
  have hp : (Split (TrimSuffix q.Name s.domain) '.').dropLast = [nm, "nodes"] := by
    rw [hn]
    exact parts_node_question nm s.domain hdot
  rw [ServeDNS_of_parts L s r q rest nm "nodes" hq hp, route_nodes_A L s r _ _ ht, hN]
  rfl

/-- C7 on the round trip of the specification: the node `foo` stored as
`ip: 10.0.0.5`, queried by an A query for `foo.nodes.suds.local.`. -/
theorem C7_NodesA_single_A_record_witness :
    (exampleServer [("/nodes/foo", ⟨nodeValue, []⟩)]).etcd.Get
        (exampleLib.Join ["/", "/", "nodes", "foo"]) false false
      = .ok ⟨nodeValue, []⟩
    ∧ ∃ m, NodesA exampleLib
          (exampleServer [("/nodes/foo", ⟨nodeValue, []⟩)])
          (query "foo.nodes.suds.local." TypeA)
          (TrimSuffix "foo.nodes.suds.local." "suds.local.")
        = (.ptr m, [⟨exampleLib.Join ["/", "/", "nodes", "foo"], false, false⟩])
      ∧ m.Answer = [RR.A ⟨"foo.nodes.suds.local.", TypeA, 1, 0⟩
          (some [0, 0, 0, 0, 0, 0, 0, 0, 0, 0, 255, 255, 10, 0, 0, 5])]
      ∧ m.Extra = []
      ∧ m.Rcode = RcodeSuccess
      ∧ (TypeA = TypeA → '.' ∉ "foo".data →
          ServeDNS exampleLib
            (exampleServer [("/nodes/foo", ⟨nodeValue, []⟩)])
            (query "foo.nodes.suds.local." TypeA)
          = (.wrote m, [⟨exampleLib.Join ["/", "/", "nodes", "foo"], false, false⟩])) :=
  ⟨by decide,
    C7_NodesA_single_A_record exampleLib
      (exampleServer [("/nodes/foo", ⟨nodeValue, []⟩)])
      (query "foo.nodes.suds.local." TypeA) ⟨"foo.nodes.suds.local.", TypeA, 1⟩ []
      "foo" ⟨nodeValue, []⟩
      ⟨some [0, 0, 0, 0, 0, 0, 0, 0, 0, 0, 255, 255, 10, 0, 0, 5]⟩
      [0, 0, 0, 0, 0, 0, 0, 0, 0, 0, 255, 255, 10, 0, 0, 5]
      rfl (by decide) (by decide) (by decide) rfl⟩

/-- C8.  For the A question `nm.nodes.<domain>` with `nm` free of dots, when
the fetch of the node path of `nm` fails with the etcd error key-not-found,
`ServeDNS` writes the name-error reply after that single fetch, and does not
write the server-failure reply. -/
theorem C8_absent_node_gives_name_error (L : Lib) (s : Server) (r : Msg)
    (q : Question) (rest : List Question) (nm : String) (e : GoError)
    (hq : r.Question = q :: rest)
    (hn : q.Name = nm ++ ".nodes." ++ s.domain)
    (hdot : '.' ∉ nm.data)
    (ht : q.Qtype = TypeA)
    (hget : s.etcd.Get (L.Join ["/", s.prefix_, "nodes", nm]) false false = .error e)
    (hk : IsKeyNotFound e = true) :
    ServeDNS L s r
        = (.wrote (NameError r), [⟨L.Join ["/", s.prefix_, "nodes", nm], false, false⟩])
      ∧ (NameError r).Rcode = RcodeNameError
      ∧ (ServeDNS L s r).1 ≠ .wrote (HandleFailed r) := by
  obtain ⟨h1, h2⟩ := TrimSuffix_node_question nm s.domain
  have hp : (Split (TrimSuffix q.Name s.domain) '.').dropLast = [nm, "nodes"] := by
    rw [hn]
    exact parts_node_question nm s.domain hdot
  have hname : TrimSuffix q.Name s.domain = nm ++ ".nodes." := by rw [hn]; exact h1
  have hS : ServeDNS L s r
      = (.wrote (NameError r), [⟨L.Join ["/", s.prefix_, "nodes", nm], false, false⟩]) := by
    rw [ServeDNS_of_parts L s r q rest nm "nodes" hq hp, route_nodes_A L s r _ _ ht, hname]
    unfold NodesA GetNode nodeKey
    simp only [h2, hget, respond, hk, if_true]
  refine ⟨hS, rfl, ?_⟩
  rw [hS]
  intro hc
  injection hc with hm
  exact NameError_ne_HandleFailed r hm

/-- C8 on the empty store, which answers every fetch with key-not-found, and
the A question `foo.nodes.suds.local.`. -/
theorem C8_absent_node_gives_name_error_witness :
    (exampleServer []).etcd.Get (exampleLib.Join ["/", "/", "nodes", "foo"]) false false
      = .error (.etcd EcodeKeyNotFound "Key not found")
    ∧ IsKeyNotFound (.etcd EcodeKeyNotFound "Key not found") = true
    ∧ ServeDNS exampleLib (exampleServer []) (query "foo.nodes.suds.local." TypeA)
      = (.wrote (NameError (query "foo.nodes.suds.local." TypeA)),
         [⟨exampleLib.Join ["/", "/", "nodes", "foo"], false, false⟩]) :=
  ⟨by decide, by decide,
    (C8_absent_node_gives_name_error exampleLib (exampleServer [])
      (query "foo.nodes.suds.local." TypeA) ⟨"foo.nodes.suds.local.", TypeA, 1⟩ []
      "foo" (.etcd EcodeKeyNotFound "Key not found") rfl (by decide) (by decide) rfl
      (by decide) (by decide)).1⟩

/-- C9 (the code departs from the claim).  A service `api` with one valid
endpoint whose target `stub.nodes.` names a node stored without an address:
`GetNode` returns `(nil, nil)`, and `ServicesA` reads `node.IP` on the nil
node and panics instead of skipping the endpoint and returning a reply; so
does `ServeDNS` on the A query for the service. -/
theorem C9_ServicesA_node_without_address_panics :
    (GetService exampleLib (exampleServer stubStore) "api.services.").1
        = .ok [⟨30, 5, 80, "stub.nodes."⟩]
      ∧ (GetNode exampleLib (exampleServer stubStore) "stub.nodes.").1 = .nil
      ∧ ServicesA exampleLib (exampleServer stubStore)
          (query "api.services.suds.local." TypeA) "api.services."
        = (.panic, [⟨"/services/api", false, true⟩, ⟨"/nodes/stub", false, false⟩])
      ∧ (ServeDNS exampleLib (exampleServer stubStore)
          (query "api.services.suds.local." TypeA)).1 = .panic := by
  decide

/-- C10.  When the store returns a directory listing, `GetService` returns
without error the children, in listing order, whose value decodes as a service
record and whose target is not empty; in particular an empty directory gives
the empty list, and no child makes the result an error. -/
theorem C10_GetService_keeps_valid_children (L : Lib) (s : Server) (name : String)
    (resp : Response)
    (hget : s.etcd.Get
      (L.Join ["/", s.prefix_, "services", TrimSuffix name ".services."]) false true
        = .ok resp) :
    (GetService L s name).1
        = .ok ((resp.Nodes.filterMap fun n => (L.UnmarshalRecord n.Value).toOption).filter
            fun record => record.Target ≠ "")
      ∧ (resp.Nodes = [] → (GetService L s name).1 = .ok []) := by
  have hv : ∀ nodes : List EtcdNode,
      nodes.filterMap (validRecord L)
        = (nodes.filterMap fun n => (L.UnmarshalRecord n.Value).toOption).filter
            fun record => record.Target ≠ "" := by
    intro nodes
    induction nodes with
    | nil => rfl
    | cons n rest ih =>
      rw [List.filterMap_cons, List.filterMap_cons, ih]
      unfold validRecord
      cases hd : L.UnmarshalRecord n.Value with
      | error e => simp [Except.toOption]
      | ok record =>
        by_cases ht : record.Target = "" <;> simp [Except.toOption, List.filter_cons, ht]
  have hG : (GetService L s name).1 = .ok (resp.Nodes.filterMap (validRecord L)) := by
    unfold GetService serviceKey
    simp only [hget, GetService_loop_eq, List.nil_append]
  refine ⟨by rw [hG, hv], ?_⟩
  intro hnil
  rw [hG, hnil]
  rfl

/-- C10 on the service directory of the scenario: of its four children, the
one that does not decode and the one with an empty target are dropped. -/
theorem C10_GetService_keeps_valid_children_witness :
    scenarioServer.etcd.Get
        (exampleLib.Join ["/", scenarioServer.prefix_, "services",
          TrimSuffix "api.services." ".services."]) false true
      = .ok ⟨"", [⟨"/services/api/1", web1Value⟩, ⟨"/services/api/2", "not json"⟩,
                  ⟨"/services/api/3", emptyTargetValue⟩, ⟨"/services/api/4", externalValue⟩]⟩
    ∧ (GetService exampleLib scenarioServer "api.services.").1
      = .ok [⟨10, 5, 80, "web1.nodes."⟩, ⟨20, 5, 80, "external.example.com."⟩] :=
  ⟨by decide,
    (C10_GetService_keeps_valid_children exampleLib scenarioServer "api.services."
      ⟨"", [⟨"/services/api/1", web1Value⟩, ⟨"/services/api/2", "not json"⟩,
            ⟨"/services/api/3", emptyTargetValue⟩, ⟨"/services/api/4", externalValue⟩]⟩
      (by decide)).1⟩

/-- C11.  A directory child that decodes to an endpoint with an empty target
contributes nothing: for a store whose listing of the service lacks that child
and whose node fetches are the same, `ServicesA` and `ServicesSRV` return the
same result (the same reply, answer and additional sections included, after
the same fetches) as for the store whose listing holds it. -/
theorem C11_empty_target_contributes_nothing (L : Lib) (s : Server) (e' : EtcdClient)
    (r : Msg) (name v v' : String) (pre post : List EtcdNode) (n : EtcdNode)
    (record : Record)
    (hget : s.etcd.Get (serviceKey L s name) false true = .ok ⟨v, pre ++ n :: post⟩)
    (hget' : e'.Get (serviceKey L s name) false true = .ok ⟨v', pre ++ post⟩)
    (hnodes : ∀ t, e'.Get (nodeKey L s t) false false
      = s.etcd.Get (nodeKey L s t) false false)
    (hdec : L.UnmarshalRecord n.Value = .ok record)
    (hempty : record.Target = "") :
    ServicesA L s r name = ServicesA L { s with etcd := e' } r name
      ∧ ServicesSRV L s r name = ServicesSRV L { s with etcd := e' } r name
      ∧ (GetService L s name).1 = .ok ((pre ++ post).filterMap (validRecord L)) := by
  have hv : validRecord L n = none := by simp [validRecord, hdec, hempty]
  have hG := GetService_of_get L s name _ hget
  have hk : serviceKey L { s with etcd := e' } name = serviceKey L s name := rfl
  have hG' : GetService L { s with etcd := e' } name = GetService L s name := by
    rw [hG, GetService_of_get L { s with etcd := e' } name ⟨v', pre ++ post⟩
      (by rw [hk]; exact hget'), hk]
    simp only [filterMap_validRecord_remove L pre post n hv]
  refine ⟨?_, ?_, ?_⟩
  · unfold ServicesA
    simp only [hG', ServicesA_loop_congr L s e' hnodes]
  · unfold ServicesSRV
    simp only [hG', ServicesSRV_loop_congr L s e' hnodes]
  · rw [hG]
    simp only [filterMap_validRecord_remove L pre post n hv]

/-- C11 on the scenario: the third child of the directory `api` has an empty
target, and the SRV reply is the one of the listing without that child. -/
theorem C11_empty_target_contributes_nothing_witness :
    exampleLib.UnmarshalRecord emptyTargetValue = .ok ⟨1, 1, 80, ""⟩
      ∧ ServicesSRV exampleLib scenarioServer (query "api.services.svc.local." TypeSRV)
          "api.services."
        = ServicesSRV exampleLib
          { scenarioServer with
            etcd := withListing scenarioServer.etcd
              ⟨"", [⟨"/services/api/1", web1Value⟩, ⟨"/services/api/2", "not json"⟩,
                    ⟨"/services/api/4", externalValue⟩]⟩ }
          (query "api.services.svc.local." TypeSRV) "api.services." :=
  ⟨by decide,
    (C11_empty_target_contributes_nothing exampleLib scenarioServer
      (withListing scenarioServer.etcd
        ⟨"", [⟨"/services/api/1", web1Value⟩, ⟨"/services/api/2", "not json"⟩,
              ⟨"/services/api/4", externalValue⟩]⟩)
      (query "api.services.svc.local." TypeSRV) "api.services." "" ""
      [⟨"/services/api/1", web1Value⟩, ⟨"/services/api/2", "not json"⟩]
      [⟨"/services/api/4", externalValue⟩] ⟨"/services/api/3", emptyTargetValue⟩
      ⟨1, 1, 80, ""⟩ (by decide) (by decide) (fun _ => rfl) (by decide) rfl).2.1⟩

/-- C12.  With `valid` the children of the listing that decode with a
non-empty target, in listing order: when `ServicesSRV` returns a reply, its
answer section is `valid` mapped endpoint by endpoint to SRV records, so the
i-th answer carries the priority, weight and port of the i-th valid endpoint
and no sorting takes place; when `ServicesA` returns a reply, its answer
section is the A records of the endpoints of `valid` that produce one, in the
order of `valid`. -/
theorem C12_answers_in_listing_order (L : Lib) (s : Server) (r : Msg) (name : String)
    (resp : Response) (m : Msg) (f : List Fetch)
    (hget : s.etcd.Get (serviceKey L s name) false true = .ok resp) :
    (ServicesSRV L s r name = (.ptr m, f) →
        ∃ q, r.Question.head? = some q
          ∧ m.Answer = (resp.Nodes.filterMap (validRecord L)).map (srvAnswer s q)
          ∧ ∀ (i : Nat) (record : Record),
              (resp.Nodes.filterMap (validRecord L))[i]? = some record →
              m.Answer[i]? = some (RR.SRV ⟨q.Name, q.Qtype, q.Qclass, s.ttl⟩
                record.Priority record.Weight record.Port (record.Target ++ s.domain)))
      ∧ (ServicesA L s r name = (.ptr m, f) →
        ∃ q, r.Question.head? = some q
          ∧ m.Answer = (resp.Nodes.filterMap (validRecord L)).filterMap
              (nodeRecord L s ⟨q.Name, q.Qtype, q.Qclass, s.ttl⟩)) := by
  have hG := GetService_of_get L s name resp hget
  constructor
  · intro h
    obtain ⟨records, q, rest, g, hg, _, hq, hl⟩ := ServicesSRV_ptr_inv L s r name m f h
    rw [hG] at hg
    simp only [Prod.mk.injEq, Except.ok.injEq] at hg
    have ha := ServicesSRV_loop_answer L s q records (SetReply r) g m f hl
    rw [← hg.1] at ha
    have hA : m.Answer = (resp.Nodes.filterMap (validRecord L)).map (srvAnswer s q) := by
      rw [ha]; simp [SetReply]
    refine ⟨q, by rw [hq]; rfl, hA, ?_⟩
    intro i record hi
    rw [hA, List.getElem?_map, hi]
    rfl
  · intro h
    obtain ⟨records, q, rest, g, hg, _, hq, hl⟩ := ServicesA_ptr_inv L s r name m f h
    rw [hG] at hg
    simp only [Prod.mk.injEq, Except.ok.injEq] at hg
    have ha := ServicesA_loop_answer L s _ records (SetReply r) g m f hl
    rw [← hg.1] at ha
    refine ⟨q, by rw [hq]; rfl, ?_⟩
    rw [ha]; simp [SetReply]

/-- C12 on a listing that gives the endpoint of priority 20 before the one of
priority 10: the SRV answers keep that order. -/
theorem C12_answers_in_listing_order_witness :
    (exampleServer reversedStore).etcd.Get
        (serviceKey exampleLib (exampleServer reversedStore) "api.services.") false true
      = .ok ⟨"", [⟨"/services/api/4", externalValue⟩, ⟨"/services/api/1", web1Value⟩]⟩
    ∧ ServicesSRV exampleLib (exampleServer reversedStore)
        (query "api.services.suds.local." TypeSRV) "api.services."
      = (.ptr reversedReply,
         [⟨"/services/api", false, true⟩, ⟨"/nodes/web1", false, false⟩])
    ∧ ∃ q, (query "api.services.suds.local." TypeSRV).Question.head? = some q
        ∧ reversedReply.Answer
          = ([⟨"/services/api/4", externalValue⟩, ⟨"/services/api/1", web1Value⟩].filterMap
              (validRecord exampleLib)).map (srvAnswer (exampleServer reversedStore) q)
        ∧ ∀ (i : Nat) (record : Record),
            ([(⟨"/services/api/4", externalValue⟩ : EtcdNode),
              ⟨"/services/api/1", web1Value⟩].filterMap (validRecord exampleLib))[i]?
              = some record →
            reversedReply.Answer[i]?
              = some (RR.SRV ⟨q.Name, q.Qtype, q.Qclass, (exampleServer reversedStore).ttl⟩
                  record.Priority record.Weight record.Port
                  (record.Target ++ (exampleServer reversedStore).domain)) :=
  ⟨by decide, by decide,
    (C12_answers_in_listing_order exampleLib (exampleServer reversedStore)
      (query "api.services.suds.local." TypeSRV) "api.services."
      ⟨"", [⟨"/services/api/4", externalValue⟩, ⟨"/services/api/1", web1Value⟩]⟩
      reversedReply [⟨"/services/api", false, true⟩, ⟨"/nodes/web1", false, false⟩]
      (by decide)).1 (by decide)⟩

/-- C13.  For the A or SRV question `nm.services.<domain>` with `nm` free of
dots, when the directory of `nm` exists and each of its children fails to
decode or has an empty target (an empty directory included), `ServicesA` and
`ServicesSRV` return `(nil, nil)`, and `ServeDNS` writes the name-error reply;
a store in which the directory is absent (the fetch fails with key-not-found)
gives the same outcome of `ServeDNS`. -/
theorem C13_no_valid_endpoint_gives_name_error (L : Lib) (s : Server) (r : Msg)
    (q : Question) (rest : List Question) (nm : String) (resp : Response)
    (hq : r.Question = q :: rest)
    (hn : q.Name = nm ++ ".services." ++ s.domain)
    (hdot : '.' ∉ nm.data)
    (ht : q.Qtype = TypeA ∨ q.Qtype = TypeSRV)
    (hget : s.etcd.Get (L.Join ["/", s.prefix_, "services", nm]) false true = .ok resp)
    (hnone : ∀ n ∈ resp.Nodes, (∃ msg, L.UnmarshalRecord n.Value = .error msg)
      ∨ (∃ record, L.UnmarshalRecord n.Value = .ok record ∧ record.Target = "")) :
    ServicesA L s r (TrimSuffix q.Name s.domain)
        = (.nil, [⟨L.Join ["/", s.prefix_, "services", nm], false, true⟩])
      ∧ ServicesSRV L s r (TrimSuffix q.Name s.domain)
        = (.nil, [⟨L.Join ["/", s.prefix_, "services", nm], false, true⟩])
      ∧ ServeDNS L s r
        = (.wrote (NameError r), [⟨L.Join ["/", s.prefix_, "services", nm], false, true⟩])
      ∧ (NameError r).Rcode = RcodeNameError
      ∧ (∀ (e' : EtcdClient) (e : GoError),
          e'.Get (L.Join ["/", s.prefix_, "services", nm]) false true = .error e →
          IsKeyNotFound e = true →
          ServeDNS L { s with etcd := e' } r = ServeDNS L s r) := by
  obtain ⟨h1, h2⟩ := TrimSuffix_service_question nm s.domain
  have hname : TrimSuffix q.Name s.domain = nm ++ ".services." := by rw [hn]; exact h1
  have hp : (Split (TrimSuffix q.Name s.domain) '.').dropLast = [nm, "services"] := by
    rw [hn]
    exact parts_service_question nm s.domain hdot
  have hk : serviceKey L s (nm ++ ".services.") = L.Join ["/", s.prefix_, "services", nm] := by
    unfold serviceKey
    rw [h2]
  have hG := GetService_of_get L s (nm ++ ".services.") resp (by rw [hk]; exact hget)
  rw [filterMap_validRecord_eq_nil L resp.Nodes hnone, hk] at hG
  have hA : ServicesA L s r (TrimSuffix q.Name s.domain)
      = (.nil, [⟨L.Join ["/", s.prefix_, "services", nm], false, true⟩]) := by
    rw [hname]
    unfold ServicesA
    rw [hG]
    rfl
  have hS : ServicesSRV L s r (TrimSuffix q.Name s.domain)
      = (.nil, [⟨L.Join ["/", s.prefix_, "services", nm], false, true⟩]) := by
    rw [hname]
    unfold ServicesSRV
    rw [hG]
    rfl
  have hD : ServeDNS L s r
      = (.wrote (NameError r), [⟨L.Join ["/", s.prefix_, "services", nm], false, true⟩]) := by
    rw [ServeDNS_of_parts L s r q rest nm "services" hq hp]
    rcases ht with ht | ht
    · rw [route_services_A L s r _ _ ht, hA]
      rfl
    · rw [route_services_SRV L s r _ _ ht, hS]
      rfl
  refine ⟨hA, hS, hD, rfl, ?_⟩
  intro e' e hget' hk'
  rw [hD]
  have hG' := GetService_of_get_error L { s with etcd := e' } (nm ++ ".services.") e
    (by
      have : serviceKey L { s with etcd := e' } (nm ++ ".services.")
          = L.Join ["/", s.prefix_, "services", nm] := hk
      rw [this]
      exact hget')
  have hk2 : serviceKey L { s with etcd := e' } (nm ++ ".services.")
      = L.Join ["/", s.prefix_, "services", nm] := hk
  rw [hk2] at hG'
  rw [ServeDNS_of_parts L { s with etcd := e' } r q rest nm "services" hq hp]
  have hname' : TrimSuffix q.Name ({ s with etcd := e' } : Server).domain
      = nm ++ ".services." := hname
  rw [hname']
  rcases ht with ht | ht
  · rw [route_services_A L _ r _ _ ht]
    unfold ServicesA
    rw [hG']
    simp only [respond, hk', if_true]
  · rw [route_services_SRV L _ r _ _ ht]
    unfold ServicesSRV
    rw [hG']
    simp only [respond, hk', if_true]

/-- C13 on a directory `api` whose two children are a value that does not
decode and an endpoint with an empty target, queried for SRV records. -/
theorem C13_no_valid_endpoint_gives_name_error_witness :
    (exampleServer invalidStore).etcd.Get
        (exampleLib.Join ["/", (exampleServer invalidStore).prefix_, "services", "api"])
        false true
      = .ok ⟨"", [⟨"/services/api/2", "not json"⟩, ⟨"/services/api/3", emptyTargetValue⟩]⟩
    ∧ ServicesSRV exampleLib (exampleServer invalidStore)
        (query "api.services.suds.local." TypeSRV)
        (TrimSuffix "api.services.suds.local." "suds.local.")
      = (.nil, [⟨"/services/api", false, true⟩])
    ∧ ServeDNS exampleLib (exampleServer invalidStore)
        (query "api.services.suds.local." TypeSRV)
      = (.wrote (NameError (query "api.services.suds.local." TypeSRV)),
         [⟨"/services/api", false, true⟩])
    ∧ ServeDNS exampleLib (exampleServer [])
        (query "api.services.suds.local." TypeSRV)
      = ServeDNS exampleLib (exampleServer invalidStore)
        (query "api.services.suds.local." TypeSRV) :=
  have h := C13_no_valid_endpoint_gives_name_error exampleLib (exampleServer invalidStore)
    (query "api.services.suds.local." TypeSRV) ⟨"api.services.suds.local.", TypeSRV, 1⟩ []
    "api" ⟨"", [⟨"/services/api/2", "not json"⟩, ⟨"/services/api/3", emptyTargetValue⟩]⟩
    rfl (by decide) (by decide) (Or.inr rfl) (by decide)
    (by
      intro n hn
      simp only [List.mem_cons, List.mem_singleton, List.not_mem_nil, or_false] at hn
      rcases hn with rfl | rfl
      · exact Or.inl ⟨"invalid character", by decide⟩
      · exact Or.inr ⟨⟨1, 1, 80, ""⟩, by decide, rfl⟩)
  ⟨by decide, h.2.1, h.2.2.1,
    h.2.2.2.2 (tableStore []) (.etcd EcodeKeyNotFound "Key not found") (by decide)
      (by decide)⟩

/-- C14.  When the question passes the arity check with the segments `seg0`
and `rType`, and either `rType` is neither `services` nor `nodes`, or it is
`services` and the query type is neither A nor SRV, or it is `nodes` and the
query type is not A, `ServeDNS` writes the name-error reply and performs no
fetch. -/
theorem C14_unsupported_family_or_type_gives_name_error (L : Lib) (s : Server) (r : Msg)
    (q : Question) (rest : List Question) (seg0 rType : String)
    (hq : r.Question = q :: rest)
    (hp : (Split (TrimSuffix q.Name s.domain) '.').dropLast = [seg0, rType])
    (h : (rType ≠ "services" ∧ rType ≠ "nodes")
      ∨ (rType = "services" ∧ q.Qtype ≠ TypeA ∧ q.Qtype ≠ TypeSRV)
      ∨ (rType = "nodes" ∧ q.Qtype ≠ TypeA)) :
    ServeDNS L s r = (.wrote (NameError r), [])
      ∧ (NameError r).Rcode = RcodeNameError := by
  rw [ServeDNS_of_parts L s r q rest seg0 rType hq hp, route_unsupported L s r _ _ _ h]
  exact ⟨rfl, rfl⟩

/-- C14 on an SRV question for a node, `foo.nodes.suds.local.`, over a store
that holds the node. -/
theorem C14_unsupported_family_or_type_gives_name_error_witness :
    (Split (TrimSuffix "foo.nodes.suds.local." "suds.local.") '.').dropLast = ["foo", "nodes"]
      ∧ TypeSRV ≠ TypeA
      ∧ ServeDNS exampleLib (exampleServer [("/nodes/foo", ⟨nodeValue, []⟩)])
          (query "foo.nodes.suds.local." TypeSRV)
        = (.wrote (NameError (query "foo.nodes.suds.local." TypeSRV)), []) :=
  ⟨by decide, by decide,
    (C14_unsupported_family_or_type_gives_name_error exampleLib
      (exampleServer [("/nodes/foo", ⟨nodeValue, []⟩)])
      (query "foo.nodes.suds.local." TypeSRV) ⟨"foo.nodes.suds.local.", TypeSRV, 1⟩ []
      "foo" "nodes" rfl (by decide) (Or.inr (Or.inr ⟨rfl, by decide⟩))).1⟩

/-- C15.  For a routed query (segments `seg0` and `rType`, a family and a type
that select a handler): when the fetch of the requested key fails with an
error that is not the key-not-found error of the store (the etcd error of code
100), or when the value of the requested node does not decode, `ServeDNS`
writes the server-failure reply, which is not the name-error reply; and
whenever the handler returns an error, `ServeDNS` writes the name-error reply
if and only if that error is an etcd error of code 100. -/
theorem C15_other_errors_give_server_failure (L : Lib) (s : Server) (r : Msg)
    (q : Question) (rest : List Question) (seg0 rType : String)
    (hq : r.Question = q :: rest)
    (hp : (Split (TrimSuffix q.Name s.domain) '.').dropLast = [seg0, rType]) :
    (rType = "nodes" → q.Qtype = TypeA → ∀ e,
        s.etcd.Get (nodeKey L s (TrimSuffix q.Name s.domain)) false false = .error e →
        (∀ msg, e ≠ GoError.etcd 100 msg) →
        ServeDNS L s r = (.wrote (HandleFailed r),
          [⟨nodeKey L s (TrimSuffix q.Name s.domain), false, false⟩]))
      ∧ (rType = "nodes" → q.Qtype = TypeA → ∀ resp msg,
        s.etcd.Get (nodeKey L s (TrimSuffix q.Name s.domain)) false false = .ok resp →
        L.UnmarshalNode resp.Value = .error msg →
        ServeDNS L s r = (.wrote (HandleFailed r),
          [⟨nodeKey L s (TrimSuffix q.Name s.domain), false, false⟩]))
      ∧ (rType = "services" → (q.Qtype = TypeA ∨ q.Qtype = TypeSRV) → ∀ e,
        s.etcd.Get (serviceKey L s (TrimSuffix q.Name s.domain)) false true = .error e →
        (∀ msg, e ≠ GoError.etcd 100 msg) →
        ServeDNS L s r = (.wrote (HandleFailed r),
          [⟨serviceKey L s (TrimSuffix q.Name s.domain), false, true⟩]))
      ∧ (HandleFailed r).Rcode = RcodeServerFailure
      ∧ HandleFailed r ≠ NameError r
      ∧ (∀ e f, route L s r (TrimSuffix q.Name s.domain) rType q.Qtype = (.err e, f) →
        ((ServeDNS L s r).1 = .wrote (NameError r) ↔ ∃ msg, e = GoError.etcd 100 msg))
      ∧ (∀ e f, route L s r (TrimSuffix q.Name s.domain) rType q.Qtype = (.err e, f) →
        ((ServeDNS L s r).1 = .wrote (HandleFailed r) ↔ ∀ msg, e ≠ GoError.etcd 100 msg)) := by
  have hS := ServeDNS_of_parts L s r q rest seg0 rType hq hp
  have IsKeyNotFound_iff : ∀ e : GoError,
      IsKeyNotFound e = true ↔ ∃ msg, e = GoError.etcd 100 msg := by
    intro e
    cases e with
    | etcd code msg =>
      constructor
      · intro h
        have hc : code = 100 := by simpa [IsKeyNotFound, EcodeKeyNotFound] using h
        exact ⟨msg, by rw [hc]⟩
      · rintro ⟨msg', h⟩
        injection h with hc _
        simp [IsKeyNotFound, EcodeKeyNotFound, hc]
    | json msg =>
      constructor
      · intro h; simp [IsKeyNotFound] at h
      · rintro ⟨msg', h⟩; cases h
    | other msg =>
      constructor
      · intro h; simp [IsKeyNotFound] at h
      · rintro ⟨msg', h⟩; cases h
  have IsKeyNotFound_eq_false : ∀ e : GoError, (∀ msg, e ≠ GoError.etcd 100 msg) →
      IsKeyNotFound e = false := by
    intro e h
    cases hk : IsKeyNotFound e with
    | false => rfl
    | true =>
      obtain ⟨msg, hm⟩ := (IsKeyNotFound_iff e).mp hk
      exact absurd hm (h msg)
  refine ⟨?_, ?_, ?_, rfl, fun h => NameError_ne_HandleFailed r h.symm, ?_, ?_⟩
  · intro hr ht e hget hne
    have hk := IsKeyNotFound_eq_false e hne
    subst hr
    rw [hS, route_nodes_A L s r _ _ ht]
    unfold NodesA
    rw [GetNode_of_get_error L s _ e hget]
    exact respond_err r e _ hk
  · intro hr ht resp msg hget hdec
    subst hr
    rw [hS, route_nodes_A L s r _ _ ht]
    unfold NodesA
    rw [GetNode_of_decode_error L s _ resp msg hget hdec]
    exact respond_err r _ _ (IsKeyNotFound_eq_false _ (fun _ h => by cases h))
  · intro hr ht e hget hne
    have hk := IsKeyNotFound_eq_false e hne
    subst hr
    rw [hS]
    rcases ht with ht | ht
    · rw [route_services_A L s r _ _ ht]
      unfold ServicesA
      rw [GetService_of_get_error L s _ e hget]
      exact respond_err r e _ hk
    · rw [route_services_SRV L s r _ _ ht]
      unfold ServicesSRV
      rw [GetService_of_get_error L s _ e hget]
      exact respond_err r e _ hk
  · intro e f hroute
    rw [hS, hroute, ← IsKeyNotFound_iff e]
    cases hk : IsKeyNotFound e with
    | true => simp [respond, hk]
    | false =>
      rw [respond_err r e f hk]
      simp only [Bool.false_eq_true, iff_false]
      intro hc
      injection hc with hm
      exact NameError_ne_HandleFailed r hm.symm
  · intro e f hroute
    rw [hS, hroute]
    constructor
    · intro hw msg hm
      have hk : IsKeyNotFound e = true := (IsKeyNotFound_iff e).mpr ⟨msg, hm⟩
      simp only [respond, hk, if_true] at hw
      injection hw with hm'
      exact NameError_ne_HandleFailed r hm'
    · intro hne
      rw [respond_err r e f (IsKeyNotFound_eq_false e hne)]

/-- C15 on an A question for the node `foo`, over four stores: one that cannot
be reached, one that fails with the etcd error of code 300, and one whose value
for `foo` does not decode all give the server-failure reply; the empty store,
whose fetch fails with the etcd error of code 100, gives the name-error
reply.  The classifier is evaluated on each of the four errors, and the SRV
question for the service `api` gives name-error on the empty store and
server-failure on the store that fails with code 300. -/
theorem C15_other_errors_give_server_failure_witness :
    (Split (TrimSuffix "foo.nodes.suds.local." "suds.local.") '.').dropLast = ["foo", "nodes"]
      ∧ ServeDNS exampleLib (exampleServerOn downStore) (query "foo.nodes.suds.local." TypeA)
        = (.wrote (HandleFailed (query "foo.nodes.suds.local." TypeA)),
           [⟨nodeKey exampleLib (exampleServerOn downStore)
              (TrimSuffix "foo.nodes.suds.local." "suds.local."), false, false⟩])
      ∧ nodeKey exampleLib (exampleServerOn downStore)
          (TrimSuffix "foo.nodes.suds.local." "suds.local.") = "/nodes/foo"
      ∧ (exampleServerOn faultyStore).etcd.Get "/nodes/foo" false false
        = .error (.etcd 300 "Raft Internal Error")
      ∧ ServeDNS exampleLib (exampleServerOn faultyStore)
          (query "foo.nodes.suds.local." TypeA)
        = (.wrote (HandleFailed (query "foo.nodes.suds.local." TypeA)),
           [⟨nodeKey exampleLib (exampleServerOn faultyStore)
              (TrimSuffix "foo.nodes.suds.local." "suds.local."), false, false⟩])
      ∧ exampleLib.UnmarshalNode "not json" = .error "invalid character"
      ∧ ServeDNS exampleLib (exampleServer [("/nodes/foo", ⟨"not json", []⟩)])
          (query "foo.nodes.suds.local." TypeA)
        = (.wrote (HandleFailed (query "foo.nodes.suds.local." TypeA)),
           [⟨nodeKey exampleLib (exampleServer [("/nodes/foo", ⟨"not json", []⟩)])
              (TrimSuffix "foo.nodes.suds.local." "suds.local."), false, false⟩])
      ∧ route exampleLib (exampleServer []) (query "foo.nodes.suds.local." TypeA)
          (TrimSuffix "foo.nodes.suds.local." "suds.local.") "nodes" TypeA
        = (.err (.etcd 100 "Key not found"), [⟨"/nodes/foo", false, false⟩])
      ∧ (ServeDNS exampleLib (exampleServer []) (query "foo.nodes.suds.local." TypeA)).1
        = .wrote (NameError (query "foo.nodes.suds.local." TypeA))
      ∧ (ServeDNS exampleLib (exampleServer []) (query "foo.nodes.suds.local." TypeA)).1
        ≠ .wrote (HandleFailed (query "foo.nodes.suds.local." TypeA))
      ∧ IsKeyNotFound (.etcd 100 "Key not found") = true
      ∧ IsKeyNotFound (.etcd 300 "Raft Internal Error") = false
      ∧ IsKeyNotFound (.json "invalid character") = false
      ∧ IsKeyNotFound (.other "connection refused") = false
      ∧ ServeDNS exampleLib (exampleServer []) (query "api.services.suds.local." TypeSRV)
        = (.wrote (NameError (query "api.services.suds.local." TypeSRV)),
           [⟨"/services/api", false, true⟩])
      ∧ ServeDNS exampleLib (exampleServerOn faultyStore)
          (query "api.services.suds.local." TypeSRV)
        = (.wrote (HandleFailed (query "api.services.suds.local." TypeSRV)),
           [⟨"/services/api", false, true⟩]) :=
  ⟨by decide,
    (C15_other_errors_give_server_failure exampleLib (exampleServerOn downStore)
      (query "foo.nodes.suds.local." TypeA) ⟨"foo.nodes.suds.local.", TypeA, 1⟩ []
      "foo" "nodes" rfl (by decide)).1 rfl rfl (.other "connection refused") rfl
      (fun _ h => by cases h),
    by decide, by decide,
    (C15_other_errors_give_server_failure exampleLib (exampleServerOn faultyStore)
      (query "foo.nodes.suds.local." TypeA) ⟨"foo.nodes.suds.local.", TypeA, 1⟩ []
      "foo" "nodes" rfl (by decide)).1 rfl rfl (.etcd 300 "Raft Internal Error") rfl
      (fun _ h => by injection h with hc _; exact absurd hc (by decide)),
    by decide,
    (C15_other_errors_give_server_failure exampleLib
      (exampleServer [("/nodes/foo", ⟨"not json", []⟩)])
      (query "foo.nodes.suds.local." TypeA) ⟨"foo.nodes.suds.local.", TypeA, 1⟩ []
      "foo" "nodes" rfl (by decide)).2.1 rfl rfl ⟨"not json", []⟩ "invalid character"
      (by decide) (by decide),
    by decide,
    ((C15_other_errors_give_server_failure exampleLib (exampleServer [])
      (query "foo.nodes.suds.local." TypeA) ⟨"foo.nodes.suds.local.", TypeA, 1⟩ []
      "foo" "nodes" rfl (by decide)).2.2.2.2.2.1 (.etcd 100 "Key not found")
      [⟨"/nodes/foo", false, false⟩] (by decide)).mpr ⟨"Key not found", rfl⟩,
    fun hc =>
      ((C15_other_errors_give_server_failure exampleLib (exampleServer [])
        (query "foo.nodes.suds.local." TypeA) ⟨"foo.nodes.suds.local.", TypeA, 1⟩ []
        "foo" "nodes" rfl (by decide)).2.2.2.2.2.2 (.etcd 100 "Key not found")
        [⟨"/nodes/foo", false, false⟩] (by decide)).mp hc "Key not found" rfl,
    by decide, by decide, by decide, by decide, by decide, by decide⟩

/-- C16.  For the A question `nm.services.<domain>` with `nm` free of dots,
when the directory of `nm` holds at least one valid endpoint and each valid
endpoint either has a target without the suffix `.nodes.` or a node for which
`GetNode` returns an error, `ServicesA` returns a reply (not nil) whose answer
section is empty, and `ServeDNS` writes that reply, with the response code
success, not the name-error reply. -/
theorem C16_service_without_A_record_gives_empty_success (L : Lib) (s : Server)
    (r : Msg) (q : Question) (rest : List Question) (nm : String) (resp : Response)
    (hq : r.Question = q :: rest)
    (hn : q.Name = nm ++ ".services." ++ s.domain)
    (hdot : '.' ∉ nm.data)
    (ht : q.Qtype = TypeA)
    (hget : s.etcd.Get (L.Join ["/", s.prefix_, "services", nm]) false true = .ok resp)
    (hne : resp.Nodes.filterMap (validRecord L) ≠ [])
    (hno : ∀ record ∈ resp.Nodes.filterMap (validRecord L),
      HasSuffix record.Target ".nodes." = false
        ∨ ∃ e, (GetNode L s record.Target).1 = .err e) :
    (ServicesA L s r (TrimSuffix q.Name s.domain)).1 = .ptr (SetReply r)
      ∧ (SetReply r).Answer = []
      ∧ (SetReply r).Rcode = RcodeSuccess
      ∧ (ServeDNS L s r).1 = .wrote (SetReply r)
      ∧ (ServeDNS L s r).1 ≠ .wrote (NameError r) := by
  obtain ⟨h1, h2⟩ := TrimSuffix_service_question nm s.domain
  have hname : TrimSuffix q.Name s.domain = nm ++ ".services." := by rw [hn]; exact h1
  have hp : (Split (TrimSuffix q.Name s.domain) '.').dropLast = [nm, "services"] := by
    rw [hn]
    exact parts_service_question nm s.domain hdot
  have hk : serviceKey L s (nm ++ ".services.") = L.Join ["/", s.prefix_, "services", nm] := by
    unfold serviceKey
    rw [h2]
  have hG := GetService_of_get L s (nm ++ ".services.") resp (by rw [hk]; exact hget)
  have hA : (ServicesA L s r (TrimSuffix q.Name s.domain)).1 = .ptr (SetReply r) := by
    rw [hname, ServicesA_of_noStub L s r _ q rest _ hq (by rw [hG]) hne
      (noStub_of_no_record L s _ hno), filterMap_nodeRecord_eq_nil L s _ _ hno]
    rfl
  have hD : (ServeDNS L s r).1 = .wrote (SetReply r) := by
    rw [ServeDNS_of_parts L s r q rest nm "services" hq hp, route_services_A L s r _ _ ht]
    rcases hR : ServicesA L s r (TrimSuffix q.Name s.domain) with ⟨res, f⟩
    rw [hR] at hA
    simp only at hA
    subst hA
    rfl
  refine ⟨hA, rfl, rfl, hD, ?_⟩
  rw [hD]
  intro hc
  injection hc with hm
  have := congrArg Msg.Rcode hm
  simp [SetReply, NameError, SetRcode, RcodeSuccess, RcodeNameError] at this

/-- C16 on a service whose two valid endpoints are `external.example.com.`
(no node suffix) and `web1.nodes.` (its node is absent from the store). -/
theorem C16_service_without_A_record_gives_empty_success_witness :
    (exampleServer unresolvedStore).etcd.Get
        (exampleLib.Join ["/", (exampleServer unresolvedStore).prefix_, "services", "api"])
        false true
      = .ok ⟨"", [⟨"/services/api/4", externalValue⟩, ⟨"/services/api/1", web1Value⟩]⟩
    ∧ ServeDNS exampleLib (exampleServer unresolvedStore)
        (query "api.services.suds.local." TypeA)
      = (.wrote (SetReply (query "api.services.suds.local." TypeA)),
         [⟨"/services/api", false, true⟩, ⟨"/nodes/web1", false, false⟩])
    ∧ (ServeDNS exampleLib (exampleServer unresolvedStore)
        (query "api.services.suds.local." TypeA)).1
      = .wrote (SetReply (query "api.services.suds.local." TypeA))
    ∧ (SetReply (query "api.services.suds.local." TypeA)).Answer = [] :=
  have h := C16_service_without_A_record_gives_empty_success exampleLib
    (exampleServer unresolvedStore) (query "api.services.suds.local." TypeA)
    ⟨"api.services.suds.local.", TypeA, 1⟩ [] "api"
    ⟨"", [⟨"/services/api/4", externalValue⟩, ⟨"/services/api/1", web1Value⟩]⟩
    rfl (by decide) (by decide) rfl (by decide) (by decide)
    (by
      intro record hr
      have hv : [(⟨"/services/api/4", externalValue⟩ : EtcdNode),
          ⟨"/services/api/1", web1Value⟩].filterMap (validRecord exampleLib)
          = [⟨20, 5, 80, "external.example.com."⟩, ⟨10, 5, 80, "web1.nodes."⟩] := by
        decide
      rw [hv] at hr
      simp only [List.mem_cons, List.mem_singleton, List.not_mem_nil, or_false] at hr
      rcases hr with rfl | rfl
      · exact Or.inl (by decide)
      · exact Or.inr ⟨.etcd EcodeKeyNotFound "Key not found", by decide⟩)
  ⟨by decide, by decide, h.2.2.2.1, h.2.1⟩

/-- C17.  When `ServicesSRV` returns a reply, its additional section is, in
the order of the valid endpoints, one A record for each endpoint whose target
ends in `.nodes.` and for which `GetNode` returns a node; each such record has
the question name as owner, the type A, the class of the question, the
configured TTL, and the address decoded from the value stored at the node key
of the endpoint's target. -/
theorem C17_additional_records_of_srv_reply (L : Lib) (s : Server) (r : Msg)
    (name : String) (m : Msg) (f : List Fetch)
    (h : ServicesSRV L s r name = (.ptr m, f)) :
    ∃ records q, (GetService L s name).1 = .ok records
      ∧ r.Question.head? = some q
      ∧ m.Extra = records.filterMap (nodeRecord L s ⟨q.Name, TypeA, q.Qclass, s.ttl⟩)
      ∧ ∀ x ∈ m.Extra, ∃ record ∈ records, ∃ node resp ip,
          HasSuffix record.Target ".nodes." = true
            ∧ s.etcd.Get (nodeKey L s record.Target) false false = .ok resp
            ∧ L.UnmarshalNode resp.Value = .ok node
            ∧ node.IP = some ip
            ∧ x = RR.A ⟨q.Name, TypeA, q.Qclass, s.ttl⟩ (some ip) := by
  obtain ⟨records, q, rest, g, hg, _, hq, hl⟩ := ServicesSRV_ptr_inv L s r name m f h
  have he := ServicesSRV_loop_extra L s q records (SetReply r) g m f hl
  have hE : m.Extra
      = records.filterMap (nodeRecord L s ⟨q.Name, TypeA, q.Qclass, s.ttl⟩) := by
    rw [he]; simp [SetReply]
  refine ⟨records, q, by rw [hg], by rw [hq]; rfl, hE, ?_⟩
  intro x hx
  rw [hE, List.mem_filterMap] at hx
  obtain ⟨record, hr, hn⟩ := hx
  unfold nodeRecord at hn
  by_cases hs : HasSuffix record.Target ".nodes." = true
  · rw [if_pos hs] at hn
    cases hres : (GetNode L s record.Target).1 with
    | nil => rw [hres] at hn; simp at hn
    | panic => rw [hres] at hn; simp at hn
    | err e => rw [hres] at hn; simp at hn
    | ptr node =>
      rw [hres] at hn
      simp only [Option.some.injEq] at hn
      obtain ⟨resp, ip, h1, h2, h3⟩ := GetNode_ptr_inv L s record.Target node hres
      exact ⟨record, hr, node, resp, ip, hs, h1, h2, h3, by rw [← hn, h3]⟩
  · rw [if_neg hs] at hn
    simp at hn

/-- C17 on the scenario of the specification: the additional section of
the SRV reply is the single A record of the node `web1`, owned by the question
name `api.services.svc.local.`. -/
theorem C17_additional_records_of_srv_reply_witness :
    ServicesSRV exampleLib scenarioServer (query "api.services.svc.local." TypeSRV)
        "api.services."
      = (.ptr scenarioReply,
         [⟨"/services/api", false, true⟩, ⟨"/nodes/web1", false, false⟩])
    ∧ scenarioReply.Extra
      = [RR.A ⟨"api.services.svc.local.", TypeA, 1, 60⟩
          (some [0, 0, 0, 0, 0, 0, 0, 0, 0, 0, 255, 255, 10, 0, 0, 5])]
    ∧ ∃ records q,
        (GetService exampleLib scenarioServer "api.services.").1 = .ok records
          ∧ (query "api.services.svc.local." TypeSRV).Question.head? = some q
          ∧ scenarioReply.Extra = records.filterMap
              (nodeRecord exampleLib scenarioServer
                ⟨q.Name, TypeA, q.Qclass, scenarioServer.ttl⟩)
          ∧ ∀ x ∈ scenarioReply.Extra, ∃ record ∈ records, ∃ node resp ip,
              HasSuffix record.Target ".nodes." = true
                ∧ scenarioServer.etcd.Get
                    (nodeKey exampleLib scenarioServer record.Target) false false = .ok resp
                ∧ exampleLib.UnmarshalNode resp.Value = .ok node
                ∧ node.IP = some ip
                ∧ x = RR.A ⟨q.Name, TypeA, q.Qclass, scenarioServer.ttl⟩ (some ip) :=
  ⟨by decide, by decide,
    C17_additional_records_of_srv_reply exampleLib scenarioServer
      (query "api.services.svc.local." TypeSRV) "api.services." scenarioReply
      [⟨"/services/api", false, true⟩, ⟨"/nodes/web1", false, false⟩] (by decide)⟩

/-- C18.  For a request with at least one question, whatever the question
name and the domain: the split of the stripped name has at least one segment,
so the slice that drops the last segment is in range; `ServeDNS` either finds
other than two segments left and writes the name-error reply, or finds exactly
two, reads segment 1 in range and goes on to the switch; a panic of
`ServeDNS` can then only come from the handler the switch selects. -/
theorem C18_name_parsing_stays_in_range (L : Lib) (s : Server) (r : Msg)
    (q : Question) (rest : List Question) (hq : r.Question = q :: rest) :
    0 < (Split (TrimSuffix q.Name s.domain) '.').length
      ∧ (((Split (TrimSuffix q.Name s.domain) '.').dropLast).length ≠ 2 →
          ServeDNS L s r = (.wrote (NameError r), []))
      ∧ (((Split (TrimSuffix q.Name s.domain) '.').dropLast).length = 2 →
          ∃ seg0 rType,
            (Split (TrimSuffix q.Name s.domain) '.').dropLast = [seg0, rType]
              ∧ ((Split (TrimSuffix q.Name s.domain) '.').dropLast).get? 1 = some rType
              ∧ ServeDNS L s r
                = respond r (route L s r (TrimSuffix q.Name s.domain) rType q.Qtype))
      ∧ ((ServeDNS L s r).1 = .panic →
          ∃ seg0 rType,
            (Split (TrimSuffix q.Name s.domain) '.').dropLast = [seg0, rType]
              ∧ (route L s r (TrimSuffix q.Name s.domain) rType q.Qtype).1 = .panic) := by
  have h2 : ((Split (TrimSuffix q.Name s.domain) '.').dropLast).length = 2 →
      ∃ seg0 rType, (Split (TrimSuffix q.Name s.domain) '.').dropLast = [seg0, rType] := by
    intro hl
    match hd : (Split (TrimSuffix q.Name s.domain) '.').dropLast, hl with
    | [a, b], _ => exact ⟨a, b, rfl⟩
  refine ⟨Split_length_pos _ _, ServeDNS_of_arity_ne L s r q rest hq, ?_, ?_⟩
  · intro hl
    obtain ⟨seg0, rType, hp⟩ := h2 hl
    exact ⟨seg0, rType, hp, by rw [hp]; rfl, ServeDNS_of_parts L s r q rest seg0 rType hq hp⟩
  · intro hpanic
    by_cases hl : ((Split (TrimSuffix q.Name s.domain) '.').dropLast).length = 2
    · obtain ⟨seg0, rType, hp⟩ := h2 hl
      rw [ServeDNS_of_parts L s r q rest seg0 rType hq hp] at hpanic
      exact ⟨seg0, rType, hp, respond_panic r _ hpanic⟩
    · rw [ServeDNS_of_arity_ne L s r q rest hq hl] at hpanic
      simp at hpanic

/-- C18 on the question whose name is the domain itself: the stripped name is
empty, its split is the single empty segment, nothing is left after the last
segment is dropped, and `ServeDNS` writes the name-error reply. -/
theorem C18_name_parsing_stays_in_range_witness :
    Split (TrimSuffix "suds.local." "suds.local.") '.' = [""]
      ∧ 0 < (Split (TrimSuffix "suds.local." "suds.local.") '.').length
      ∧ ServeDNS exampleLib (exampleServer []) (query "suds.local." TypeA)
        = (.wrote (NameError (query "suds.local." TypeA)), []) :=
  have h := C18_name_parsing_stays_in_range exampleLib (exampleServer [])
    (query "suds.local." TypeA) ⟨"suds.local.", TypeA, 1⟩ [] rfl
  ⟨by decide, h.1, h.2.1 (by decide)⟩

end Suds
